import Mathlib

/-!
# S-Raft (EC2 variant) — shallow embedding and verification

This file embeds the consensus core of the S-Raft implementation
(`node.py`, `message.py`, `config.py`) into Lean 4 and settles the frozen
claims about it.

Modelling conventions:
* Python `float` durations and wall-clock times are modelled as `ℚ`
  (the code only compares and adds them; floating-point rounding plays no
  role in any claim we settle).
* `time.time()` calls inside one handler are modelled as a single `now`
  parameter (the code treats them as "the current tick's time").
* `random.uniform(lo, hi)` is modelled as `lo + u * (hi - lo)` where the
  unit draw `u` is an explicit input of the step; range facts become
  hypotheses `0 ≤ u ∧ u ≤ 1` where a claim needs them.
* Python `dict` is modelled as an insertion-ordered association list
  (`List (ℕ × α)`): lookup finds the first binding, update replaces in
  place, fresh keys are appended — exactly Python's semantics.
* Python `set` is modelled as `Finset ℕ`.
* The transport is abstracted: `transport.send(i, m)` accumulates `(i, m)`
  into the handler's output list, `transport.get_connected_count()` is an
  input of the timer step.  Print statements, metrics-sink calls and
  application callbacks do not affect consensus state and are dropped;
  the `stats` counters (which the code also keeps) are retained.
-/

namespace SRaft

/-- Model of `message.py` `LogEntry`: the ordered triple `(term, command, index)`.
The command is opaque to the consensus core; we model it as `ℕ`. -/
structure LogEntry where
  term : ℕ
  command : ℕ
  index : ℕ
deriving Repr, DecidableEq

/-- Typed payloads of the four consensus wire messages (`message.py`
`create_append_entries` / `create_append_ack` / `create_request_vote` /
`create_vote_response`).  A missing dict key in the code defaults to `0`
or `False`; the typed field ranges over those defaults as well. -/
inductive MData where
  | ae (prev_log_index prev_log_term : ℕ) (entries : List LogEntry)
       (leader_commit : ℕ) (sub_leaders : List (ℕ × ℕ))
  | ack (success : Bool) (match_index : ℕ)
  | rv (last_log_index last_log_term : ℕ)
  | vr (vote_granted : Bool)
deriving Repr, DecidableEq

/-- A consensus message as seen by `node.py` (type tag folded into the
payload constructor; `timestamp`/`message_id` are not read by `node.py`). -/
structure Msg where
  sender : ℕ
  term : ℕ
  data : MData
deriving Repr, DecidableEq

/-- Model of `config.py` `RaftConfig` — the fields the consensus core reads. -/
structure Config where
  heartbeat_interval : ℚ := 1/20
  election_timeout_base : ℚ := 3/20
  enable_subleader : Bool := true
  subleader_ratio : ℚ := 2/5
  primary_timeout_min : ℚ := 3/20
  primary_timeout_max : ℚ := 1/5
  secondary_timeout_min : ℚ := 1/4
  secondary_timeout_max : ℚ := 7/20
  follower_timeout_min : ℚ := 3/10
  follower_timeout_max : ℚ := 1
  promotion_timeout : ℚ := 3/10
  rtt_alpha : ℚ := 3/10
deriving Repr, DecidableEq

/-- Model of the `node.py` `NodeState` constants. -/
inductive Role where
  | follower
  | candidate
  | leader
  | stopped
deriving Repr, DecidableEq

/-- The per-node statistics counters of `node.py` (`self.stats`). -/
structure Stats where
  elections_started : ℕ := 0
  votes_received_total : ℕ := 0
  became_leader_count : ℕ := 0
  became_subleader_count : ℕ := 0
  instant_promotions : ℕ := 0
  promotion_successes : ℕ := 0
  promotion_failures : ℕ := 0
deriving Repr, DecidableEq

/-- Lookup in a Python-dict model: first binding wins. -/
def dget {α : Type} (d : List (ℕ × α)) (k : ℕ) : Option α :=
  List.lookup k d

/-- Python `d.get(k, v0)`. -/
def dgetD {α : Type} (d : List (ℕ × α)) (k : ℕ) (v₀ : α) : α :=
  (dget d k).getD v₀

/-- Python `k in d`. -/
def dmem {α : Type} (d : List (ℕ × α)) (k : ℕ) : Bool :=
  (dget d k).isSome

/-- Python `d[k] = v`: replace in place if present, append otherwise
(Python dicts preserve insertion order). -/
def dset {α : Type} : List (ℕ × α) → ℕ → α → List (ℕ × α)
  | [], k, v => [(k, v)]
  | (k', v') :: t, k, v =>
    if k' = k then (k, v) :: t else (k', v') :: dset t k v

/-- The `RaftNode` state (`node.py` `__init__`), restricted to the fields the
consensus logic reads or writes.  Thread/debug plumbing (`running`,
`lock`, callbacks, `metrics`) is outside the state machine. -/
structure Node where
  id : ℕ
  total_nodes : ℕ
  config : Config
  state : Role
  current_term : ℕ
  voted_for : Option ℕ
  log : List LogEntry
  commit_index : ℕ
  last_applied : ℕ
  leader_id : Option ℕ
  had_leader_before : Bool
  is_sub_leader : Bool
  subleader_rank : Option ℕ
  current_sub_leaders : List (ℕ × ℕ)
  subleaders_assigned : Bool
  response_times : List (ℕ × ℚ)
  message_sent_times : List (ℕ × ℚ)
  is_promotion_pending : Bool
  promotion_start_time : ℚ
  promotion_ack_count : ℕ
  promotion_ack_nodes : Finset ℕ
  promotion_confirmed : Bool
  last_majority_ack_time : ℚ
  recent_ack_nodes : Finset ℕ
  next_index : List (ℕ × ℕ)
  match_index : List (ℕ × ℕ)
  votes_received : ℕ
  voted_nodes : Finset ℕ
  election_start_time : ℚ
  consecutive_election_failures : ℕ
  last_heartbeat : ℚ
  election_timeout : ℚ
  startup_grace_period : Bool
  startup_time : ℚ
  startup_grace_duration : ℚ
  stats : Stats
deriving DecidableEq

/-- Model of `random.uniform(lo, hi)` with explicit unit draw `u`. -/
def uniform (lo hi u : ℚ) : ℚ := lo + u * (hi - lo)

/-- Python `self.log[-1].term if self.log else 0`. -/
def lastLogTerm (log : List LogEntry) : ℕ :=
  (log.getLast?).elim 0 (·.term)

/-- Model of `RaftNode._reset_election_timer`, with the uniform draw `u` passed in.
Note the Python falls through to the Follower bracket when the node is a
sub-leader with a rank other than 0/1. -/
def resetElectionTimer (n : Node) (u : ℚ) : ℚ :=
  if !n.had_leader_before then
    let base_offset : ℚ := (n.id : ℚ) * (1/20)
    uniform (n.config.election_timeout_base + base_offset)
            (n.config.election_timeout_base * 2 + base_offset) u
  else if n.config.enable_subleader && n.is_sub_leader
          && (n.subleader_rank = some 0 : Bool) then
    uniform n.config.primary_timeout_min n.config.primary_timeout_max u
  else if n.config.enable_subleader && n.is_sub_leader
          && (n.subleader_rank = some 1 : Bool) then
    uniform n.config.secondary_timeout_min n.config.secondary_timeout_max u
  else
    let id_offset : ℚ := ((n.id % n.total_nodes : ℕ) : ℚ) * (3/20)
    uniform (n.config.follower_timeout_min + id_offset)
            (n.config.follower_timeout_max + id_offset) u

/-- Model of `RaftNode._step_down_to_follower` (the election timer is re-drawn from
the already-demoted state, as in the source where the assignment runs
last). -/
def stepDown (n : Node) (now u : ℚ) : Node :=
  let n' := { n with
    state := Role.follower
    is_promotion_pending := false
    promotion_confirmed := false
    promotion_ack_count := 0
    promotion_ack_nodes := (∅ : Finset ℕ)
    voted_for := none
    is_sub_leader := false
    subleader_rank := none
    leader_id := none
    last_heartbeat := now }
  { n' with election_timeout := resetElectionTimer n' u }

/-- Model of `RaftNode._apply_committed_entries` (the commit callback does not
change consensus state; only `last_applied` advances). -/
def applyCommitted (n : Node) : Node :=
  if _h : n.last_applied < n.commit_index then
    applyCommitted { n with last_applied := n.last_applied + 1 }
  else n
termination_by n.commit_index - n.last_applied
decreasing_by simp_wf; omega

/-- Model of `RaftNode._init_log_tracking`. -/
def initLogTracking (n : Node) : Node :=
  { n with
    next_index := ((List.range n.total_nodes).filter (· ≠ n.id)).map
      (fun i => (i, n.log.length + 1))
    match_index := ((List.range n.total_nodes).filter (· ≠ n.id)).map
      (fun i => (i, 0)) }

/-- The peer ids a broadcast loop `for i in range(total_nodes) if i != id`
visits, in order. -/
def peersOf (n : Node) : List ℕ :=
  (List.range n.total_nodes).filter (· ≠ n.id)

/-- The sub-leader–map computation at the top of
`RaftNode._send_append_entries` (designation by ascending EMA RTT; Python's
`sorted` is stable, as is `List.insertionSort`).  Returns the updated node
and the `subleader_map` attached to the outgoing messages. -/
def subleaderPrep (n : Node) : Node × List (ℕ × ℕ) :=
  if n.config.enable_subleader then
    let num : ℕ := (⌊(n.total_nodes : ℚ) * n.config.subleader_ratio⌋).toNat
    if n.subleaders_assigned then (n, n.current_sub_leaders)
    else if n.response_times ≠ [] ∧ n.response_times.length ≥ num then
      let sorted_nodes := n.response_times.insertionSort (fun p q => p.2 ≤ q.2)
      let m := ((sorted_nodes.take num).enum).map (fun p => (p.2.1, p.1))
      ({ n with current_sub_leaders := m, subleaders_assigned := true }, m)
    else (n, [])
  else (n, [])

/-- Model of `RaftNode._send_append_entries`.  During a pending promotion the
broadcast carries empty entries and `leader_commit = len(log)`; otherwise
per-peer `next_index`-driven replication with at most 100 entries. -/
def sendAppendEntries (n : Node) (now : ℚ) : Node × List (ℕ × Msg) :=
  let pr := subleaderPrep n
  let subleader_map := pr.2
  let n2 := { pr.1 with recent_ack_nodes := ({pr.1.id} : Finset ℕ) }
  if n2.is_promotion_pending then
    let msgs := (peersOf n2).map (fun i =>
      (i, ({ sender := n2.id, term := n2.current_term,
             data := MData.ae 0 0 [] n2.log.length subleader_map } : Msg)))
    let n3 := { n2 with
      message_sent_times := (peersOf n2).foldl (fun d i => dset d i now) n2.message_sent_times,
      last_heartbeat := now }
    (n3, msgs)
  else
    let msgs := (peersOf n2).map (fun i =>
      let next_idx := dgetD n2.next_index i (n2.log.length + 1)
      let prev_log_index := next_idx - 1
      let prev_log_term :=
        if prev_log_index > 0 ∧ prev_log_index ≤ n2.log.length then
          (n2.log.getD (prev_log_index - 1) ⟨0, 0, 0⟩).term
        else 0
      let entries :=
        if next_idx ≤ n2.log.length then
          (n2.log.drop (next_idx - 1)).take (min (next_idx + 99) n2.log.length - (next_idx - 1))
        else []
      (i, ({ sender := n2.id, term := n2.current_term,
             data := MData.ae prev_log_index prev_log_term entries n2.commit_index subleader_map } : Msg)))
    let n3 := { n2 with
      message_sent_times := (peersOf n2).foldl (fun d i => dset d i now) n2.message_sent_times,
      last_heartbeat := now }
    (n3, msgs)

/-- Model of `RaftNode._become_leader_from_promotion` (metrics/callback dropped;
`leader_elected_time` is written but never read by the logic). -/
def becomeLeaderFromPromotion (n : Node) (now : ℚ) : Node × List (ℕ × Msg) :=
  let n1 := { n with
    state := Role.leader
    leader_id := some n.id
    promotion_confirmed := true
    is_promotion_pending := false
    consecutive_election_failures := 0
    stats := { n.stats with
      promotion_successes := n.stats.promotion_successes + 1
      became_leader_count := n.stats.became_leader_count + 1 }
    last_majority_ack_time := now
    recent_ack_nodes := ({n.id} : Finset ℕ) }
  let n2 := initLogTracking n1
  let n3 := { n2 with subleaders_assigned := false, current_sub_leaders := [] }
  sendAppendEntries n3 now

/-- Model of `RaftNode._become_leader_from_election`. -/
def becomeLeaderFromElection (n : Node) (now : ℚ) : Node × List (ℕ × Msg) :=
  let n1 := { n with
    state := Role.leader
    leader_id := some n.id
    is_sub_leader := false
    subleader_rank := none
    had_leader_before := true
    consecutive_election_failures := 0
    stats := { n.stats with
      became_leader_count := n.stats.became_leader_count + 1 }
    last_majority_ack_time := now
    recent_ack_nodes := ({n.id} : Finset ℕ) }
  let n2 := initLogTracking n1
  let n3 := { n2 with subleaders_assigned := false, current_sub_leaders := [] }
  sendAppendEntries n3 now

/-- Model of `RaftNode._check_promotion_success`. -/
def checkPromotionSuccess (n : Node) (now u : ℚ) : Node × List (ℕ × Msg) :=
  let majority := n.total_nodes / 2 + 1
  if n.promotion_ack_nodes.card ≥ majority ∧ n.state = Role.candidate then
    becomeLeaderFromPromotion n now
  else if now - n.promotion_start_time > n.config.promotion_timeout then
    let n1 := { n with stats :=
      { n.stats with promotion_failures := n.stats.promotion_failures + 1 } }
    (stepDown n1 now u, [])
  else (n, [])

/-- Lines 402–417 of `RaftNode._handle_append_entries`: refresh the
heartbeat, revert a same-term Candidate, adopt the sender as leader, and
(first time a leader is seen) re-draw the election timer. -/
def aeAdopt (n : Node) (now u2 : ℚ) (sender mterm : ℕ) : Node :=
  let na := { n with
    last_heartbeat := now
    consecutive_election_failures := 0
    startup_grace_period := false }
  let nb := if na.state = Role.candidate ∧ mterm = na.current_term then
      { na with
        state := Role.follower
        is_promotion_pending := false
        promotion_confirmed := false }
    else na
  let nc := { nb with
    state := Role.follower
    current_term := mterm
    leader_id := some sender }
  if !nc.had_leader_before then
    let nc' := { nc with had_leader_before := true }
    { nc' with election_timeout := resetElectionTimer nc' u2 }
  else nc

/-- Lines 419–433 of `RaftNode._handle_append_entries`: take over the
sub-leader table from the message and derive the local sub-leader role. -/
def aeSubleaders (n : Node) (u3 : ℚ) (sl : List (ℕ × ℕ)) : Node :=
  if n.config.enable_subleader then
    let n1 := { n with current_sub_leaders := sl }
    let was := n1.is_sub_leader
    let n2 := { n1 with is_sub_leader := dmem sl n1.id }
    if n2.is_sub_leader then
      let n3 := { n2 with subleader_rank := dget sl n2.id }
      let n4 := if !was then
          { n3 with stats := { n3.stats with
            became_subleader_count := n3.stats.became_subleader_count + 1 } }
        else n3
      { n4 with election_timeout := resetElectionTimer n4 u3 }
    else { n2 with subleader_rank := none }
  else n

/-- Model of `RaftNode._handle_append_entries` (dispatched with `msg.term ≤
current_term` already arranged by `_handle_message`'s higher-term
step-down, which `handleMessage` below performs first). -/
def handleAppendEntries (n : Node) (now u2 u3 : ℚ) (sender mterm p pt : ℕ)
    (entries : List LogEntry) (lc : ℕ) (sl : List (ℕ × ℕ)) :
    Node × List (ℕ × Msg) :=
  if mterm < n.current_term then
    (n, [(sender, ⟨n.id, n.current_term, MData.ack false 0⟩)])
  else
    let ne := aeSubleaders (aeAdopt n now u2 sender mterm) u3 sl
    if p > 0 ∧ p > ne.log.length then
      (ne, [(sender, ⟨ne.id, ne.current_term, MData.ack false ne.log.length⟩)])
    else if p > 0 ∧ (ne.log.getD (p - 1) ⟨0, 0, 0⟩).term ≠ pt then
      let nf := { ne with log := ne.log.take (p - 1) }
      (nf, [(sender, ⟨nf.id, nf.current_term, MData.ack false nf.log.length⟩)])
    else
      let ng := if entries ≠ [] then { ne with log := ne.log.take p ++ entries } else ne
      let nh := if lc > ng.commit_index then
          applyCommitted { ng with commit_index := min lc ng.log.length }
        else ng
      (nh, [(sender, ⟨nh.id, nh.current_term, MData.ack true nh.log.length⟩)])

/-- Model of `RaftNode._handle_request_vote`. -/
def handleRequestVote (n : Node) (now : ℚ) (sender mterm lli llt : ℕ) :
    Node × List (ℕ × Msg) :=
  let n0 := if mterm > n.current_term then
      { n with
        current_term := mterm
        voted_for := none
        state := Role.follower
        is_sub_leader := false
        subleader_rank := none }
    else n
  if mterm ≥ n0.current_term then
    if n0.state = Role.leader ∧ mterm = n0.current_term then
      (n0, [(sender, ⟨n0.id, n0.current_term, MData.vr false⟩)])
    else if n0.voted_for = none ∨ n0.voted_for = some sender then
      if llt > lastLogTerm n0.log ∨
         (llt = lastLogTerm n0.log ∧ lli ≥ n0.log.length) then
        let n1 := { n0 with voted_for := some sender, last_heartbeat := now }
        (n1, [(sender, ⟨n1.id, n1.current_term, MData.vr true⟩)])
      else (n0, [(sender, ⟨n0.id, n0.current_term, MData.vr false⟩)])
    else (n0, [(sender, ⟨n0.id, n0.current_term, MData.vr false⟩)])
  else (n0, [(sender, ⟨n0.id, n0.current_term, MData.vr false⟩)])

/-- Lines 487–499 of `RaftNode._handle_append_ack`: the promotion-ack
block, possibly becoming leader (which broadcasts AppendEntries). -/
def ackPromotionBlock (n : Node) (now : ℚ) (sender : ℕ) (success : Bool) :
    Node × List (ℕ × Msg) :=
  let majority := n.total_nodes / 2 + 1
  if n.is_promotion_pending = true ∧ success = true ∧ sender ∉ n.promotion_ack_nodes then
    let n1 := { n with
      promotion_ack_nodes := insert sender n.promotion_ack_nodes
      promotion_ack_count := n.promotion_ack_count + 1 }
    if n1.promotion_ack_nodes.card ≥ majority ∧ n1.state = Role.candidate then
      becomeLeaderFromPromotion n1 now
    else (n1, [])
  else (n, [])

/-- Lines 501–511 of `RaftNode._handle_append_ack`: the leader
replication/lease block. -/
def ackLeaderBlock (n : Node) (now : ℚ) (sender mi : ℕ) (success : Bool) : Node :=
  let majority := n.total_nodes / 2 + 1
  if n.state = Role.leader ∧ n.is_promotion_pending = false ∧ success = true then
    let n1 := { n with recent_ack_nodes := insert sender n.recent_ack_nodes }
    let n2 := if dmem n1.match_index sender then
        let m := max (dgetD n1.match_index sender 0) mi
        { n1 with
          match_index := dset n1.match_index sender m
          next_index := dset n1.next_index sender (m + 1) }
      else n1
    if n2.recent_ack_nodes.card ≥ majority then
      { n2 with last_majority_ack_time := now }
    else n2
  else n

/-- Lines 513–520 of `RaftNode._handle_append_ack`: the EMA RTT update. -/
def ackRttBlock (n : Node) (now : ℚ) (sender : ℕ) (success : Bool) : Node :=
  if success = true ∧ dmem n.message_sent_times sender then
    let rtt := now - dgetD n.message_sent_times sender 0
    let a := n.config.rtt_alpha
    let new_rt :=
      if dmem n.response_times sender then
        dset n.response_times sender
          (a * rtt + (1 - a) * dgetD n.response_times sender 0)
      else dset n.response_times sender rtt
    { n with response_times := new_rt }
  else n

/-- Model of `RaftNode._handle_append_ack`.  Mirrors the source's
sequencing: the early returns, then the promotion block, the leader
block and the RTT update in order (`total_nodes`, hence `majority`, is
unchanged by the blocks). -/
def handleAppendAck (n : Node) (now u : ℚ) (sender mterm : ℕ)
    (success : Bool) (mi : ℕ) : Node × List (ℕ × Msg) :=
  if ¬(n.state = Role.leader ∨ n.state = Role.candidate) then (n, [])
  else if mterm > n.current_term then (stepDown n now u, [])
  else if mterm < n.current_term then (n, [])
  else if success = false ∧ n.state = Role.leader ∧ n.is_promotion_pending = false then
    let n1 := if dmem n.next_index sender then
        { n with
          next_index := dset n.next_index sender (max 1 (dgetD n.next_index sender 0 - 1)) }
      else n
    (n1, [])
  else
    let res := ackPromotionBlock n now sender success
    let nb := ackLeaderBlock res.1 now sender mi success
    (ackRttBlock nb now sender success, res.2)

/-- Model of `RaftNode._handle_vote_response` (`votes_received > total_nodes / 2`
is Python float division, i.e. `2 * votes_received > total_nodes`). -/
def handleVoteResponse (n : Node) (now u : ℚ) (sender mterm : ℕ)
    (granted : Bool) : Node × List (ℕ × Msg) :=
  if n.state ≠ Role.candidate then (n, [])
  else if mterm > n.current_term then (stepDown n now u, [])
  else if mterm < n.current_term then (n, [])
  else if granted = true then
    if sender ∈ n.voted_nodes then (n, [])
    else
      let n1 := { n with
        votes_received := n.votes_received + 1
        voted_nodes := insert sender n.voted_nodes
        stats := { n.stats with
          votes_received_total := n.stats.votes_received_total + 1 } }
      if (n1.votes_received : ℚ) > (n1.total_nodes : ℚ) / 2 then
        becomeLeaderFromElection n1 now
      else (n1, [])
  else (n, [])

/-- Model of `RaftNode._instant_promotion` (draw `u1` feeds the timer reset on the
gated path, `u2` the `random.uniform(0.5, 1.0)` extension). -/
def instantPromotion (n : Node) (now u1 u2 : ℚ) (connected : ℕ) :
    Node × List (ℕ × Msg) :=
  if connected < 2 then
    ({ n with
        last_heartbeat := now
        election_timeout := resetElectionTimer n u1 + uniform (1/2) 1 u2 }, [])
  else
    let n1 := { n with
      state := Role.candidate
      current_term := n.current_term + 1
      voted_for := some n.id
      is_sub_leader := false
      subleader_rank := none
      leader_id := none
      had_leader_before := true
      promotion_ack_count := 0
      promotion_ack_nodes := ({n.id} : Finset ℕ)
      promotion_start_time := now
      promotion_confirmed := false
      is_promotion_pending := true
      stats := { n.stats with
        instant_promotions := n.stats.instant_promotions + 1 } }
    let sres := sendAppendEntries n1 now
    ({ sres.1 with last_heartbeat := now }, sres.2)

/-- Model of `RaftNode._start_election` (backoff branch first, then the
connection gate, then the actual RequestVote broadcast). -/
def startElection (n : Node) (now u1 u2 : ℚ) (connected : ℕ) :
    Node × List (ℕ × Msg) :=
  if n.consecutive_election_failures ≥ 3 then
    let backoff : ℚ :=
      min 3 (((2 : ℚ) ^ (n.consecutive_election_failures - 2)) * (1/10))
    let n1 := { n with
      last_heartbeat := now
      election_timeout := resetElectionTimer n u1 + backoff
      consecutive_election_failures := n.consecutive_election_failures + 1 }
    let n2 := if n1.consecutive_election_failures > 8 then
        { n1 with consecutive_election_failures := 0 }
      else n1
    (n2, [])
  else if connected < 2 then
    ({ n with
       consecutive_election_failures := n.consecutive_election_failures + 1
       last_heartbeat := now
       election_timeout := resetElectionTimer n u1 + uniform (1/2) 1 u2 }, [])
  else
    let n1 := { n with
      state := Role.candidate
      current_term := n.current_term + 1
      voted_for := some n.id
      votes_received := 1
      voted_nodes := ({n.id} : Finset ℕ)
      election_start_time := now
      is_sub_leader := false
      subleader_rank := none
      stats := { n.stats with
        elections_started := n.stats.elections_started + 1 } }
    let msgs := (peersOf n1).map (fun i =>
      (i, ({ sender := n1.id, term := n1.current_term,
             data := MData.rv n1.log.length (lastLogTerm n1.log) } : Msg)))
    let n2 := { n1 with
      last_heartbeat := now
      election_timeout := resetElectionTimer n1 u1 + uniform 0 (1/10) u2
      consecutive_election_failures := n1.consecutive_election_failures + 1 }
    (n2, msgs)

/-- Model of `RaftNode._check_timers` (one pass of the timer check; `connected` is
`transport.get_connected_count()`).  The Python `else` branch treats any
non-Leader/non-Candidate state with the Follower logic. -/
def checkTimers (n : Node) (now u1 u2 : ℚ) (connected : ℕ) :
    Node × List (ℕ × Msg) :=
  if n.state = Role.leader then
    let pres := if n.is_promotion_pending = true then checkPromotionSuccess n now u1
      else (n, [])
    let n1 := pres.1
    let lease_timeout := max (n1.config.heartbeat_interval * 30) 3
    if now - n1.last_majority_ack_time > lease_timeout then
      (stepDown n1 now u2, pres.2)
    else if now - n1.last_heartbeat ≥ n1.config.heartbeat_interval then
      let sres := sendAppendEntries n1 now
      (sres.1, pres.2 ++ sres.2)
    else (n1, pres.2)
  else if n.state = Role.candidate then
    if n.is_promotion_pending = true then checkPromotionSuccess n now u1
    else (n, [])
  else
    if n.startup_grace_period = true ∧ now - n.startup_time < n.startup_grace_duration then
      ({ n with last_heartbeat := now }, [])
    else
      let n1 := if n.startup_grace_period = true then
          { n with startup_grace_period := false }
        else n
      if now - n1.last_heartbeat ≥ n1.election_timeout then
        if n1.config.enable_subleader ∧ n1.is_sub_leader then
          instantPromotion n1 now u1 u2 connected
        else startElection n1 now u1 u2 connected
      else (n1, [])

/-- Model of `RaftNode._handle_message`: raise the term and step down on a
higher-term message, then dispatch on the message type. -/
def handleMessage (n : Node) (now u1 u2 u3 : ℚ) (msg : Msg) :
    Node × List (ℕ × Msg) :=
  let n0 := if msg.term > n.current_term then
      stepDown { n with current_term := msg.term } now u1
    else n
  match msg.data with
  | MData.ae p pt entries lc sl =>
    handleAppendEntries n0 now u2 u3 msg.sender msg.term p pt entries lc sl
  | MData.ack success mi =>
    handleAppendAck n0 now u2 msg.sender msg.term success mi
  | MData.rv lli llt =>
    handleRequestVote n0 now msg.sender msg.term lli llt
  | MData.vr granted =>
    handleVoteResponse n0 now u2 msg.sender msg.term granted

/-- Model of `RaftNode.submit_command`. -/
def submitCommand (n : Node) (command : ℕ) : Node × Bool :=
  if n.state ≠ Role.leader then (n, false)
  else
    ({ n with log := n.log ++ [⟨n.current_term, command, n.log.length + 1⟩] }, true)

/-- One externally-visible operation on a node: a message reception, a
timer tick (with its wall-clock time, unit draws and connection count),
or a client `submit_command`. -/
inductive Event where
  | deliver (now u1 u2 u3 : ℚ) (msg : Msg)
  | tick (now u1 u2 : ℚ) (connected : ℕ)
  | submit (command : ℕ)

/-- The node state after one operation. -/
def stepEv (n : Node) : Event → Node × List (ℕ × Msg)
  | Event.deliver now u1 u2 u3 msg => handleMessage n now u1 u2 u3 msg
  | Event.tick now u1 u2 connected => checkTimers n now u1 u2 connected
  | Event.submit command => ((submitCommand n command).1, [])

/-- The node state after a sequence of operations. -/
def runEv (n : Node) : List Event → Node
  | [] => n
  | e :: es => runEv (stepEv n e).1 es

/-- The spec's commit/apply sanity invariant:
`last_applied ≤ commit_index ≤ |log|` (claim C3). -/
def CommitInv (n : Node) : Prop :=
  n.last_applied ≤ n.commit_index ∧ n.commit_index ≤ n.log.length

/-- Side condition of amended claim C3: the event is not an AppendEntries
reception that truncates the receiver's log below `commit_index` — if it
appends entries then `commit_index ≤ prev_log_index`, and if its
`prev_log_term` mismatches the local entry then
`commit_index ≤ prev_log_index − 1`. -/
def SafeEvent (n : Node) : Event → Prop
  | Event.deliver _ _ _ _ msg =>
    match msg.data with
    | MData.ae p pt entries _ _ =>
      (entries ≠ [] → n.commit_index ≤ p) ∧
      (0 < p → p ≤ n.log.length →
        (n.log.getD (p - 1) ⟨0, 0, 0⟩).term ≠ pt → n.commit_index ≤ p - 1)
    | _ => True
  | _ => True

/-- The voted-for discipline that makes per-term vote uniqueness work: a
Candidate or Leader has always voted for itself (claim C1).  It holds in
the initial state (a Follower) and is preserved by every operation. -/
def VotedInv (n : Node) : Prop :=
  (n.state = Role.candidate ∨ n.state = Role.leader) → n.voted_for = some n.id

/-! ## Wire codec (`message.py`): JSON model -/

/-- JSON values as produced/consumed by `json.dumps` / `json.loads`.
Numbers are modelled as `ℚ` (Python ints and floats; `json.dumps` writes
floats with shortest round-trip repr, so the value domain is carried
exactly).  Object keys are strings, as in JSON. -/
inductive J where
  | jnum (q : ℚ)
  | jstr (s : String)
  | jbool (b : Bool)
  | jnull
  | jarr (xs : List J)
  | jobj (fields : List (String × J))

/-- In-memory values held in `Message.data` (typed: after decoding,
`entries` holds `LogEntry` values and `sub_leaders` an int-keyed map,
which is exactly what claim C8 asserts). -/
inductive PVal where
  | num (q : ℚ)
  | flag (b : Bool)
  | str (s : String)
  | entries (l : List LogEntry)
  | subs (m : List (ℕ × ℕ))
deriving DecidableEq, Repr

/-- The `message.py` `Message` object: `type`, `sender_id`, `term`,
`data`, `timestamp`, `message_id`. -/
structure WireMessage where
  type : String
  sender_id : ℕ
  term : ℕ
  data : List (String × PVal)
  timestamp : ℚ
  message_id : String
deriving DecidableEq, Repr

/-- Python `str(n)` for a nonnegative int, as `json.dumps` applies it to
dict keys (decimal digits, most significant first). -/
def natKey (nk : ℕ) : String :=
  if nk = 0 then "0"
  else String.mk (((Nat.digits 10 nk).map (fun d => Char.ofNat (48 + d))).reverse)

/-- Python `int(s)` on a decimal numeral (the `sub_leaders` key coercion
in `Message._deserialize_data`). -/
def keyToNat (s : String) : ℕ :=
  Nat.ofDigits 10 ((s.data.map (fun c => c.toNat - 48)).reverse)

/-- Recover a Python int from a JSON number. -/
def qToNat (q : ℚ) : Option ℕ :=
  if q.den = 1 ∧ 0 ≤ q.num then some q.num.toNat else none

/-- Run a fallible decoder over a list; any failure fails the whole
decode (a Python exception). -/
def optMapList {α β : Type} (f : α → Option β) : List α → Option (List β)
  | [] => some []
  | a :: t =>
    match f a, optMapList f t with
    | some b, some bs => some (b :: bs)
    | _, _ => none

/-- `LogEntry.to_dict`. -/
def entryToJ (e : LogEntry) : J :=
  J.jobj [("term", J.jnum e.term), ("command", J.jnum e.command),
          ("index", J.jnum e.index)]

def jToNat : J → Option ℕ
  | J.jnum q => qToNat q
  | _ => none

def jToQ : J → Option ℚ
  | J.jnum q => some q
  | _ => none

def jToStr : J → Option String
  | J.jstr s => some s
  | _ => none

/-- `LogEntry.from_dict` (`index` defaults to 0). -/
def entryFromJ : J → Option LogEntry
  | J.jobj o =>
    match (List.lookup "term" o).bind jToNat,
          (List.lookup "command" o).bind jToNat with
    | some t, some c =>
      some ⟨t, c, ((List.lookup "index" o).bind jToNat).getD 0⟩
    | _, _ => none
  | _ => none

/-- Serialisation of one `data` entry (`Message._serialize_data` plus
`json.dumps` key stringification for the `sub_leaders` dict). -/
def serPair : String × PVal → String × J
  | (k, PVal.num q) => (k, J.jnum q)
  | (k, PVal.flag b) => (k, J.jbool b)
  | (k, PVal.str s) => (k, J.jstr s)
  | (k, PVal.entries l) => (k, J.jarr (l.map entryToJ))
  | (k, PVal.subs m) =>
    (k, J.jobj (m.map (fun p => (natKey p.1, J.jnum (p.2 : ℚ)))))

/-- Deserialisation of one `data` entry (`Message._deserialize_data`:
`entries` elements become typed `LogEntry`, `sub_leaders` keys are
coerced back to int). -/
def desPair (p : String × J) : Option (String × PVal) :=
  if p.1 = "entries" then
    match p.2 with
    | J.jarr xs => (optMapList entryFromJ xs).map (fun l => (p.1, PVal.entries l))
    | _ => none
  else if p.1 = "sub_leaders" then
    match p.2 with
    | J.jobj o =>
      (optMapList (fun q => (jToNat q.2).map (fun r => (keyToNat q.1, r))) o).map
        (fun l => (p.1, PVal.subs l))
    | _ => none
  else
    match p.2 with
    | J.jnum q => some (p.1, PVal.num q)
    | J.jbool b => some (p.1, PVal.flag b)
    | J.jstr s => some (p.1, PVal.str s)
    | _ => none

/-- `Message.encode`: `to_dict` followed by `json.dumps`.  The 4-byte
big-endian length prefix and the UTF-8 byte rendering are abstracted: the
frame always carries exactly the JSON value written, and `Message.decode`
checks only that the frame is complete, which it is by construction. -/
def encodeW (m : WireMessage) : J :=
  J.jobj [("type", J.jstr m.type), ("sender_id", J.jnum m.sender_id),
          ("term", J.jnum m.term), ("data", J.jobj (m.data.map serPair)),
          ("timestamp", J.jnum m.timestamp), ("message_id", J.jstr m.message_id)]

/-- `Message.decode`: `json.loads` followed by `Message.from_dict` with
`Message._deserialize_data`. -/
def decodeW (j : J) : Option WireMessage :=
  match j with
  | J.jobj o =>
    match (List.lookup "type" o).bind jToStr,
          (List.lookup "sender_id" o).bind jToNat,
          (List.lookup "term" o).bind jToNat,
          List.lookup "data" o,
          (List.lookup "timestamp" o).bind jToQ,
          (List.lookup "message_id" o).bind jToStr with
    | some ty, some sid, some tm, some (J.jobj dd), some ts, some mid =>
      (optMapList desPair dd).map (fun d => ⟨ty, sid, tm, d, ts, mid⟩)
    | _, _, _, _, _, _ => none
  | _ => none

/-- Well-formedness of a `data` dict: the `entries` key (and only it)
holds the typed entry list, the `sub_leaders` key (and only it) holds the
int-keyed map — the shape every `create_*` helper produces. -/
def WFPair : String × PVal → Bool
  | (k, PVal.entries _) => k = "entries"
  | (k, PVal.subs _) => k = "sub_leaders"
  | (k, _) => ¬(k = "entries") ∧ ¬(k = "sub_leaders")

/-! ## Concrete states for witnesses and counterexamples -/

/-- A concrete node in the state `RaftNode.__init__` establishes (startup
grace already over, a fixed initial election-timeout draw), used as the
base state of witnesses and counterexamples. -/
def node0 : Node where
  id := 0
  total_nodes := 3
  config := {}
  state := Role.follower
  current_term := 0
  voted_for := none
  log := []
  commit_index := 0
  last_applied := 0
  leader_id := none
  had_leader_before := false
  is_sub_leader := false
  subleader_rank := none
  current_sub_leaders := []
  subleaders_assigned := false
  response_times := []
  message_sent_times := []
  is_promotion_pending := false
  promotion_start_time := 0
  promotion_ack_count := 0
  promotion_ack_nodes := ∅
  promotion_confirmed := false
  last_majority_ack_time := 0
  recent_ack_nodes := ∅
  next_index := []
  match_index := []
  votes_received := 0
  voted_nodes := ∅
  election_start_time := 0
  consecutive_election_failures := 0
  last_heartbeat := 0
  election_timeout := 3/10
  startup_grace_period := false
  startup_time := 0
  startup_grace_duration := 5
  stats := {}

/-- A concrete Primary sub-leader Follower (term 5, one log entry),
used by the C4 witness. -/
def c4node : Node := { node0 with
  is_sub_leader := true
  subleader_rank := some 0
  had_leader_before := true
  current_term := 5
  log := [⟨1, 0, 1⟩] }

/-- A concrete promoting Candidate (N=3, pending, own ack only), used by
the C5 witness. -/
def c5node : Node := { node0 with
  state := Role.candidate
  current_term := 6
  voted_for := some 0
  is_promotion_pending := true
  promotion_start_time := 0
  promotion_ack_nodes := {0}
  had_leader_before := true }

/-- A concrete ordinary Follower with 3 consecutive election failures
(election backoff active), used by the C10 counterexample. -/
def c10node : Node := { node0 with
  consecutive_election_failures := 3
  had_leader_before := true }

/-- A concrete Follower that has committed and applied its one-entry log,
used by the C3 counterexample. -/
def c3node : Node := { node0 with
  log := [⟨1, 0, 1⟩]
  commit_index := 1
  last_applied := 1
  current_term := 1 }

/-! ## Projection lemmas: which state a helper leaves untouched -/

theorem stepDown_commit_index (n : Node) (now u : ℚ) :
    (stepDown n now u).commit_index = n.commit_index := rfl

theorem stepDown_log (n : Node) (now u : ℚ) :
    (stepDown n now u).log = n.log := rfl

theorem stepDown_last_applied (n : Node) (now u : ℚ) :
    (stepDown n now u).last_applied = n.last_applied := rfl

theorem stepDown_current_term (n : Node) (now u : ℚ) :
    (stepDown n now u).current_term = n.current_term := rfl

theorem stepDown_state (n : Node) (now u : ℚ) :
    (stepDown n now u).state = Role.follower := rfl

theorem stepDown_voted_for (n : Node) (now u : ℚ) :
    (stepDown n now u).voted_for = none := rfl

theorem subleaderPrep_fst_commit_index (n : Node) :
    (subleaderPrep n).1.commit_index = n.commit_index := by
  unfold subleaderPrep; dsimp only; split_ifs <;> rfl

theorem subleaderPrep_fst_log (n : Node) :
    (subleaderPrep n).1.log = n.log := by
  unfold subleaderPrep; dsimp only; split_ifs <;> rfl

theorem subleaderPrep_fst_last_applied (n : Node) :
    (subleaderPrep n).1.last_applied = n.last_applied := by
  unfold subleaderPrep; dsimp only; split_ifs <;> rfl

theorem subleaderPrep_fst_state (n : Node) :
    (subleaderPrep n).1.state = n.state := by
  unfold subleaderPrep; dsimp only; split_ifs <;> rfl

theorem subleaderPrep_fst_voted_for (n : Node) :
    (subleaderPrep n).1.voted_for = n.voted_for := by
  unfold subleaderPrep; dsimp only; split_ifs <;> rfl

theorem subleaderPrep_fst_current_term (n : Node) :
    (subleaderPrep n).1.current_term = n.current_term := by
  unfold subleaderPrep; dsimp only; split_ifs <;> rfl

theorem subleaderPrep_fst_id (n : Node) :
    (subleaderPrep n).1.id = n.id := by
  unfold subleaderPrep; dsimp only; split_ifs <;> rfl

theorem sendAppendEntries_fst_commit_index (n : Node) (now : ℚ) :
    ((sendAppendEntries n now).1).commit_index = n.commit_index := by
  unfold sendAppendEntries
  dsimp only
  split_ifs <;> simp [subleaderPrep_fst_commit_index]

theorem sendAppendEntries_fst_log (n : Node) (now : ℚ) :
    ((sendAppendEntries n now).1).log = n.log := by
  unfold sendAppendEntries
  dsimp only
  split_ifs <;> simp [subleaderPrep_fst_log]

theorem sendAppendEntries_fst_last_applied (n : Node) (now : ℚ) :
    ((sendAppendEntries n now).1).last_applied = n.last_applied := by
  unfold sendAppendEntries
  dsimp only
  split_ifs <;> simp [subleaderPrep_fst_last_applied]

theorem sendAppendEntries_fst_state (n : Node) (now : ℚ) :
    ((sendAppendEntries n now).1).state = n.state := by
  unfold sendAppendEntries
  dsimp only
  split_ifs <;> simp [subleaderPrep_fst_state]

theorem sendAppendEntries_fst_voted_for (n : Node) (now : ℚ) :
    ((sendAppendEntries n now).1).voted_for = n.voted_for := by
  unfold sendAppendEntries
  dsimp only
  split_ifs <;> simp [subleaderPrep_fst_voted_for]

theorem sendAppendEntries_fst_current_term (n : Node) (now : ℚ) :
    ((sendAppendEntries n now).1).current_term = n.current_term := by
  unfold sendAppendEntries
  dsimp only
  split_ifs <;> simp [subleaderPrep_fst_current_term]

theorem sendAppendEntries_fst_id (n : Node) (now : ℚ) :
    ((sendAppendEntries n now).1).id = n.id := by
  unfold sendAppendEntries
  dsimp only
  split_ifs <;> simp [subleaderPrep_fst_id]

theorem applyCommitted_eq (n : Node) :
    applyCommitted n = { n with last_applied := max n.last_applied n.commit_index } := by
  generalize hd : n.commit_index - n.last_applied = d
  induction d generalizing n with
  | zero =>
    rw [applyCommitted]
    split_ifs with h
    · omega
    · have : max n.last_applied n.commit_index = n.last_applied := by omega
      rw [this]
  | succ k ih =>
    rw [applyCommitted]
    split_ifs with h
    · rw [ih _ (by simp; omega)]
      have h1 : max (n.last_applied + 1) n.commit_index = n.commit_index := by omega
      have h2 : max n.last_applied n.commit_index = n.commit_index := by omega
      simp [h1, h2]
    · omega

/-! ## Claim C9 -/

/-- C9: `submit_command(cmd)` returns True and appends exactly one entry
`(term = current_term, command = cmd, index = |log|+1)` if and only if the
node is in Leader state; when it returns False (any non-Leader state) the
node's state, including the log, is entirely unchanged.  `submitCommand`
is a total function into `Node × Bool`, so the boolean result is the only
channel through which this entry point reports a fault. -/
theorem submit_command_leader_iff (n : Node) (command : ℕ) :
    ((submitCommand n command).2 = true ↔ n.state = Role.leader) ∧
    (n.state = Role.leader →
      (submitCommand n command).1 =
        { n with log := n.log ++ [⟨n.current_term, command, n.log.length + 1⟩] }) ∧
    (n.state ≠ Role.leader → (submitCommand n command).1 = n) := by
  by_cases h : n.state = Role.leader <;> simp [submitCommand, h]

/-- Closed instantiation of `submit_command_leader_iff` at a concrete
Leader and a concrete Follower. -/
theorem submit_command_leader_iff_witness :
    (((submitCommand { node0 with state := Role.leader } 42).2 = true ↔
        ({ node0 with state := Role.leader } : Node).state = Role.leader) ∧
      (submitCommand { node0 with state := Role.leader } 42).1 =
        { ({ node0 with state := Role.leader } : Node) with
            log := [⟨0, 42, 1⟩] }) ∧
    (submitCommand node0 42).1 = node0 := by
  refine ⟨⟨(submit_command_leader_iff _ 42).1, ?_⟩, ?_⟩
  · exact (submit_command_leader_iff { node0 with state := Role.leader } 42).2.1 rfl
  · exact (submit_command_leader_iff node0 42).2.2 (by decide)

/-! ## Claim C2 -/

theorem becomeLeaderFromPromotion_fst_commit_index (n : Node) (now : ℚ) :
    ((becomeLeaderFromPromotion n now).1).commit_index = n.commit_index := by
  unfold becomeLeaderFromPromotion initLogTracking
  dsimp only
  rw [sendAppendEntries_fst_commit_index]

theorem ackPromotionBlock_fst_commit_index
    (n : Node) (now : ℚ) (sender : ℕ) (success : Bool) :
    ((ackPromotionBlock n now sender success).1).commit_index = n.commit_index := by
  unfold ackPromotionBlock
  dsimp only
  split_ifs <;> simp [becomeLeaderFromPromotion_fst_commit_index]

theorem ackLeaderBlock_commit_index
    (n : Node) (now : ℚ) (sender mi : ℕ) (success : Bool) :
    (ackLeaderBlock n now sender mi success).commit_index = n.commit_index := by
  unfold ackLeaderBlock
  dsimp only
  split_ifs <;> rfl

theorem ackRttBlock_commit_index
    (n : Node) (now : ℚ) (sender : ℕ) (success : Bool) :
    (ackRttBlock n now sender success).commit_index = n.commit_index := by
  unfold ackRttBlock
  dsimp only
  split_ifs <;> rfl

theorem handleAppendAck_fst_commit_index
    (n : Node) (now u : ℚ) (sender mterm : ℕ) (success : Bool) (mi : ℕ) :
    ((handleAppendAck n now u sender mterm success mi).1).commit_index
      = n.commit_index := by
  unfold handleAppendAck
  dsimp only
  split_ifs <;>
    simp [ackRttBlock_commit_index, ackLeaderBlock_commit_index,
      ackPromotionBlock_fst_commit_index, stepDown_commit_index]

/-- C2 (refuted; the claim describes intended Raft behaviour that the code
does not implement): processing an AppendAck never changes `commit_index`
at all — `_handle_append_ack` contains no commit-advancement logic, so
even when a strict majority of peers (including self) have
`match_index ≥ N` with `log[N−1].term = current_term`, the leader's
`commit_index` stays put. -/
theorem append_ack_never_advances_commit_index
    (n : Node) (now u1 u2 u3 : ℚ) (sender mterm : ℕ) (success : Bool) (mi : ℕ) :
    ((handleMessage n now u1 u2 u3 ⟨sender, mterm, MData.ack success mi⟩).1).commit_index
      = n.commit_index := by
  unfold handleMessage
  dsimp only
  rw [handleAppendAck_fst_commit_index]
  split_ifs <;> simp [stepDown_commit_index]

/-! ## Claim C6 -/

theorem aeAdopt_log (n : Node) (now u2 : ℚ) (sender mterm : ℕ) :
    (aeAdopt n now u2 sender mterm).log = n.log := by
  unfold aeAdopt; dsimp only; split_ifs <;> rfl

theorem aeAdopt_commit_index (n : Node) (now u2 : ℚ) (sender mterm : ℕ) :
    (aeAdopt n now u2 sender mterm).commit_index = n.commit_index := by
  unfold aeAdopt; dsimp only; split_ifs <;> rfl

theorem aeAdopt_last_applied (n : Node) (now u2 : ℚ) (sender mterm : ℕ) :
    (aeAdopt n now u2 sender mterm).last_applied = n.last_applied := by
  unfold aeAdopt; dsimp only; split_ifs <;> rfl

theorem aeAdopt_id (n : Node) (now u2 : ℚ) (sender mterm : ℕ) :
    (aeAdopt n now u2 sender mterm).id = n.id := by
  unfold aeAdopt; dsimp only; split_ifs <;> rfl

theorem aeAdopt_current_term (n : Node) (now u2 : ℚ) (sender mterm : ℕ) :
    (aeAdopt n now u2 sender mterm).current_term = mterm := by
  unfold aeAdopt; dsimp only; split_ifs <;> rfl

theorem aeAdopt_state (n : Node) (now u2 : ℚ) (sender mterm : ℕ) :
    (aeAdopt n now u2 sender mterm).state = Role.follower := by
  unfold aeAdopt; dsimp only; split_ifs <;> rfl

theorem aeAdopt_voted_for (n : Node) (now u2 : ℚ) (sender mterm : ℕ) :
    (aeAdopt n now u2 sender mterm).voted_for = n.voted_for := by
  unfold aeAdopt; dsimp only; split_ifs <;> rfl

theorem aeSubleaders_log (n : Node) (u3 : ℚ) (sl : List (ℕ × ℕ)) :
    (aeSubleaders n u3 sl).log = n.log := by
  unfold aeSubleaders; dsimp only; split_ifs <;> rfl

theorem aeSubleaders_commit_index (n : Node) (u3 : ℚ) (sl : List (ℕ × ℕ)) :
    (aeSubleaders n u3 sl).commit_index = n.commit_index := by
  unfold aeSubleaders; dsimp only; split_ifs <;> rfl

theorem aeSubleaders_last_applied (n : Node) (u3 : ℚ) (sl : List (ℕ × ℕ)) :
    (aeSubleaders n u3 sl).last_applied = n.last_applied := by
  unfold aeSubleaders; dsimp only; split_ifs <;> rfl

theorem aeSubleaders_id (n : Node) (u3 : ℚ) (sl : List (ℕ × ℕ)) :
    (aeSubleaders n u3 sl).id = n.id := by
  unfold aeSubleaders; dsimp only; split_ifs <;> rfl

theorem aeSubleaders_current_term (n : Node) (u3 : ℚ) (sl : List (ℕ × ℕ)) :
    (aeSubleaders n u3 sl).current_term = n.current_term := by
  unfold aeSubleaders; dsimp only; split_ifs <;> rfl

theorem aeSubleaders_state (n : Node) (u3 : ℚ) (sl : List (ℕ × ℕ)) :
    (aeSubleaders n u3 sl).state = n.state := by
  unfold aeSubleaders; dsimp only; split_ifs <;> rfl

theorem aeSubleaders_voted_for (n : Node) (u3 : ℚ) (sl : List (ℕ × ℕ)) :
    (aeSubleaders n u3 sl).voted_for = n.voted_for := by
  unfold aeSubleaders; dsimp only; split_ifs <;> rfl

/-- Rejection behaviour of the AppendEntries receiver, at the handler
level (premise: the message's term is not stale). -/
theorem handleAppendEntries_reject
    (n : Node) (now u2 u3 : ℚ) (sender mterm p pt : ℕ)
    (entries : List LogEntry) (lc : ℕ) (sl : List (ℕ × ℕ))
    (hterm : mterm ≥ n.current_term) (hp : 0 < p) :
    (p > n.log.length →
      (handleAppendEntries n now u2 u3 sender mterm p pt entries lc sl).1.log = n.log ∧
      (handleAppendEntries n now u2 u3 sender mterm p pt entries lc sl).1.commit_index
        = n.commit_index ∧
      (handleAppendEntries n now u2 u3 sender mterm p pt entries lc sl).2
        = [(sender, ⟨n.id, mterm, MData.ack false n.log.length⟩)]) ∧
    (p ≤ n.log.length → (n.log.getD (p - 1) ⟨0, 0, 0⟩).term ≠ pt →
      (handleAppendEntries n now u2 u3 sender mterm p pt entries lc sl).1.log
        = n.log.take (p - 1) ∧
      (handleAppendEntries n now u2 u3 sender mterm p pt entries lc sl).1.commit_index
        = n.commit_index ∧
      (handleAppendEntries n now u2 u3 sender mterm p pt entries lc sl).2
        = [(sender, ⟨n.id, mterm, MData.ack false (n.log.take (p - 1)).length⟩)]) := by
  unfold handleAppendEntries
  dsimp only
  rw [if_neg (not_lt.2 hterm)]
  simp only [aeSubleaders_log, aeAdopt_log, aeSubleaders_id, aeAdopt_id,
    aeSubleaders_current_term, aeAdopt_current_term,
    aeSubleaders_commit_index, aeAdopt_commit_index]
  constructor
  · intro hgt
    rw [if_pos ⟨hp, hgt⟩]
    exact ⟨aeSubleaders_log _ _ _ |>.trans (aeAdopt_log _ _ _ _ _),
      aeSubleaders_commit_index _ _ _ |>.trans (aeAdopt_commit_index _ _ _ _ _), rfl⟩
  · intro hle hmm
    rw [if_neg (by omega : ¬(0 < p ∧ n.log.length < p)), if_pos ⟨hp, hmm⟩]
    exact ⟨rfl, rfl, rfl⟩

/-- C6: for an AppendEntries with `msg.term ≥ current_term` and
`prev_log_index > 0`: if `prev_log_index > |log|` the receiver replies
`success=false` with its log unchanged; if the local entry at
`prev_log_index` has a different term it truncates the log to
`prev_log_index − 1` and replies `success=false`; in both cases no
entries are appended and `commit_index` does not change. -/
theorem append_entries_reject_paths
    (n : Node) (now u1 u2 u3 : ℚ) (sender mterm p pt : ℕ)
    (entries : List LogEntry) (lc : ℕ) (sl : List (ℕ × ℕ))
    (hterm : mterm ≥ n.current_term) (hp : 0 < p) :
    (p > n.log.length →
      (handleMessage n now u1 u2 u3 ⟨sender, mterm, MData.ae p pt entries lc sl⟩).1.log
        = n.log ∧
      (handleMessage n now u1 u2 u3 ⟨sender, mterm, MData.ae p pt entries lc sl⟩).1.commit_index
        = n.commit_index ∧
      (handleMessage n now u1 u2 u3 ⟨sender, mterm, MData.ae p pt entries lc sl⟩).2
        = [(sender, ⟨n.id, mterm, MData.ack false n.log.length⟩)]) ∧
    (p ≤ n.log.length → (n.log.getD (p - 1) ⟨0, 0, 0⟩).term ≠ pt →
      (handleMessage n now u1 u2 u3 ⟨sender, mterm, MData.ae p pt entries lc sl⟩).1.log
        = n.log.take (p - 1) ∧
      (handleMessage n now u1 u2 u3 ⟨sender, mterm, MData.ae p pt entries lc sl⟩).1.commit_index
        = n.commit_index ∧
      (handleMessage n now u1 u2 u3 ⟨sender, mterm, MData.ae p pt entries lc sl⟩).2
        = [(sender, ⟨n.id, mterm, MData.ack false (n.log.take (p - 1)).length⟩)]) := by
  unfold handleMessage
  dsimp only
  by_cases hw : mterm > n.current_term
  · rw [if_pos hw]
    have h := handleAppendEntries_reject
      (stepDown { n with current_term := mterm } now u1) now u2 u3 sender mterm p pt
      entries lc sl (le_of_eq rfl) hp
    simp only [stepDown_log, stepDown_commit_index] at h
    have hid : (stepDown { n with current_term := mterm } now u1).id = n.id := rfl
    rw [hid] at h
    exact h
  · rw [if_neg hw]
    exact handleAppendEntries_reject n now u2 u3 sender mterm p pt entries lc sl
      hterm hp

/-- Closed instantiation of `append_entries_reject_paths`: a node with a
one-entry log rejects both an out-of-range `prev_log_index = 2` (log kept)
and a term-mismatching `prev_log_index = 1` (log truncated to empty). -/
theorem append_entries_reject_paths_witness :
    ((handleMessage { node0 with log := [⟨1, 0, 1⟩], current_term := 1 } 0 0 0 0
        ⟨1, 1, MData.ae 2 1 [] 0 []⟩).1.log = [⟨1, 0, 1⟩] ∧
      (handleMessage { node0 with log := [⟨1, 0, 1⟩], current_term := 1 } 0 0 0 0
        ⟨1, 1, MData.ae 2 1 [] 0 []⟩).2
        = [(1, ⟨0, 1, MData.ack false 1⟩)]) ∧
    ((handleMessage { node0 with log := [⟨1, 0, 1⟩], current_term := 1 } 0 0 0 0
        ⟨1, 1, MData.ae 1 2 [] 0 []⟩).1.log = [] ∧
      (handleMessage { node0 with log := [⟨1, 0, 1⟩], current_term := 1 } 0 0 0 0
        ⟨1, 1, MData.ae 1 2 [] 0 []⟩).2
        = [(1, ⟨0, 1, MData.ack false 0⟩)]) := by
  constructor
  · have h := (append_entries_reject_paths
      { node0 with log := [⟨1, 0, 1⟩], current_term := 1 } 0 0 0 0 1 1 2 1 [] 0 []
      (by decide) (by decide)).1 (by decide)
    exact ⟨h.1, h.2.2⟩
  · have h := (append_entries_reject_paths
      { node0 with log := [⟨1, 0, 1⟩], current_term := 1 } 0 0 0 0 1 1 1 2 [] 0 []
      (by decide) (by decide)).2 (by decide) (by decide)
    exact ⟨h.1, h.2.2⟩

/-! ## Claim C7 -/

theorem stepDown_last_majority_ack_time (n : Node) (now u : ℚ) :
    (stepDown n now u).last_majority_ack_time = n.last_majority_ack_time := rfl

theorem stepDown_config (n : Node) (now u : ℚ) :
    (stepDown n now u).config = n.config := rfl

theorem stepDown_stats (n : Node) (now u : ℚ) :
    (stepDown n now u).stats = n.stats := rfl

theorem stepDown_is_promotion_pending (n : Node) (now u : ℚ) :
    (stepDown n now u).is_promotion_pending = false := rfl

/-- On a Leader, `_check_promotion_success` can only hit its timeout
branch (the become-leader branch requires Candidate), so it emits no
messages and keeps the lease clock and config. -/
theorem checkPromotionSuccess_on_leader
    (n : Node) (now u : ℚ) (h : n.state = Role.leader) :
    (checkPromotionSuccess n now u).1.last_majority_ack_time
        = n.last_majority_ack_time ∧
    (checkPromotionSuccess n now u).1.config = n.config ∧
    (checkPromotionSuccess n now u).2 = [] := by
  unfold checkPromotionSuccess
  dsimp only
  rw [if_neg (by simp [h])]
  split_ifs <;> exact ⟨rfl, rfl, rfl⟩

/-- C7: a Leader whose lease has expired — `now − last_majority_ack_time >
max(heartbeat_interval · 30, 3 s)` — ends the timer tick as a Follower and
broadcasts no AppendEntries on that tick (and, being a Follower, it then
refuses new commands, cf. `submit_command_leader_iff`). -/
theorem leader_lease_step_down
    (n : Node) (now u1 u2 : ℚ) (connected : ℕ)
    (hl : n.state = Role.leader)
    (hlease : now - n.last_majority_ack_time
        > max (n.config.heartbeat_interval * 30) 3) :
    (checkTimers n now u1 u2 connected).1.state = Role.follower ∧
    (checkTimers n now u1 u2 connected).2 = [] := by
  unfold checkTimers
  rw [if_pos hl]
  dsimp only
  by_cases hp : n.is_promotion_pending = true
  · rw [if_pos hp]
    obtain ⟨h1, h2, h3⟩ := checkPromotionSuccess_on_leader n now u1 hl
    rw [h1, h2, h3, if_pos hlease]
    exact ⟨rfl, rfl⟩
  · rw [if_neg hp]
    rw [if_pos hlease]
    exact ⟨rfl, rfl⟩

/-- Closed instantiation of `leader_lease_step_down`: a concrete Leader
with `last_majority_ack_time = 0` ticking at `now = 10 > max(1.5, 3)`. -/
theorem leader_lease_step_down_witness :
    (checkTimers { node0 with state := Role.leader } 10 0 0 3).1.state
        = Role.follower ∧
    (checkTimers { node0 with state := Role.leader } 10 0 0 3).2 = [] :=
  leader_lease_step_down { node0 with state := Role.leader } 10 0 0 3 rfl
    (by norm_num [node0])

/-! ## Claim C4 -/

theorem subleaderPrep_fst_total_nodes (n : Node) :
    (subleaderPrep n).1.total_nodes = n.total_nodes := by
  unfold subleaderPrep; dsimp only; split_ifs <;> rfl

theorem subleaderPrep_fst_is_promotion_pending (n : Node) :
    (subleaderPrep n).1.is_promotion_pending = n.is_promotion_pending := by
  unfold subleaderPrep; dsimp only; split_ifs <;> rfl

theorem subleaderPrep_fst_is_sub_leader (n : Node) :
    (subleaderPrep n).1.is_sub_leader = n.is_sub_leader := by
  unfold subleaderPrep; dsimp only; split_ifs <;> rfl

theorem subleaderPrep_fst_subleader_rank (n : Node) :
    (subleaderPrep n).1.subleader_rank = n.subleader_rank := by
  unfold subleaderPrep; dsimp only; split_ifs <;> rfl

theorem sendAppendEntries_fst_is_sub_leader (n : Node) (now : ℚ) :
    ((sendAppendEntries n now).1).is_sub_leader = n.is_sub_leader := by
  unfold sendAppendEntries
  dsimp only
  split_ifs <;> simp [subleaderPrep_fst_is_sub_leader]

theorem sendAppendEntries_fst_subleader_rank (n : Node) (now : ℚ) :
    ((sendAppendEntries n now).1).subleader_rank = n.subleader_rank := by
  unfold sendAppendEntries
  dsimp only
  split_ifs <;> simp [subleaderPrep_fst_subleader_rank]

/-- When a promotion is pending, `_send_append_entries` broadcasts the
"as-if-leader" AppendEntries: empty entries, `leader_commit = |log|`,
the computed sub-leader map, to every other peer. -/
theorem sendAppendEntries_snd_promo (n : Node) (now : ℚ)
    (h : n.is_promotion_pending = true) :
    (sendAppendEntries n now).2 = (peersOf n).map (fun i =>
      (i, ⟨n.id, n.current_term, MData.ae 0 0 [] n.log.length (subleaderPrep n).2⟩)) := by
  unfold sendAppendEntries
  dsimp only
  rw [if_pos (by rw [show ∀ m : Node, ({ m with recent_ack_nodes := ({m.id} : Finset ℕ) } : Node).is_promotion_pending = m.is_promotion_pending from fun m => rfl, subleaderPrep_fst_is_promotion_pending]; exact h)]
  dsimp only
  unfold peersOf
  simp [subleaderPrep_fst_total_nodes, subleaderPrep_fst_id,
    subleaderPrep_fst_current_term, subleaderPrep_fst_log]

/-- C4: a sub-leader Follower whose election timeout fires with
`connected_count() ≥ 2` transitions to Candidate, increments
`current_term` by exactly 1, votes for itself, clears the sub-leader
flags, and broadcasts to every other peer an AppendEntries for the new
term with empty entries and `leader_commit = |log|`; no RequestVote is
sent on this path. -/
theorem instant_promotion_effects
    (n : Node) (now u1 u2 : ℚ) (connected : ℕ)
    (hf : n.state = Role.follower)
    (hg : n.startup_grace_period = false)
    (hto : now - n.last_heartbeat ≥ n.election_timeout)
    (hen : n.config.enable_subleader = true)
    (hsub : n.is_sub_leader = true)
    (hc : 2 ≤ connected) :
    (checkTimers n now u1 u2 connected).1.state = Role.candidate ∧
    (checkTimers n now u1 u2 connected).1.current_term = n.current_term + 1 ∧
    (checkTimers n now u1 u2 connected).1.voted_for = some n.id ∧
    (checkTimers n now u1 u2 connected).1.is_sub_leader = false ∧
    (checkTimers n now u1 u2 connected).1.subleader_rank = none ∧
    (∃ sl, (checkTimers n now u1 u2 connected).2 = (peersOf n).map (fun i =>
      (i, ⟨n.id, n.current_term + 1, MData.ae 0 0 [] n.log.length sl⟩))) ∧
    (∀ x ∈ (checkTimers n now u1 u2 connected).2, ∀ a b, x.2.data ≠ MData.rv a b) := by
  have hckt : checkTimers n now u1 u2 connected
      = instantPromotion n now u1 u2 connected := by
    unfold checkTimers
    rw [if_neg (by simp [hf]), if_neg (by simp [hf])]
    dsimp only
    simp only [hg, Bool.false_eq_true, false_and, if_false]
    rw [if_pos hto, if_pos ⟨hen, hsub⟩]
  rw [hckt]
  unfold instantPromotion
  rw [if_neg (by omega)]
  dsimp only
  refine ⟨?_, ?_, ?_, ?_, ?_, ?_, ?_⟩
  · rw [show ∀ (m : Node) (t : ℚ), ({ m with last_heartbeat := t } : Node).state = m.state from fun m t => rfl]
    rw [sendAppendEntries_fst_state]
  · rw [show ∀ (m : Node) (t : ℚ), ({ m with last_heartbeat := t } : Node).current_term = m.current_term from fun m t => rfl]
    rw [sendAppendEntries_fst_current_term]
  · rw [show ∀ (m : Node) (t : ℚ), ({ m with last_heartbeat := t } : Node).voted_for = m.voted_for from fun m t => rfl]
    rw [sendAppendEntries_fst_voted_for]
  · rw [show ∀ (m : Node) (t : ℚ), ({ m with last_heartbeat := t } : Node).is_sub_leader = m.is_sub_leader from fun m t => rfl]
    rw [sendAppendEntries_fst_is_sub_leader]
  · rw [show ∀ (m : Node) (t : ℚ), ({ m with last_heartbeat := t } : Node).subleader_rank = m.subleader_rank from fun m t => rfl]
    rw [sendAppendEntries_fst_subleader_rank]
  · exact ⟨_, sendAppendEntries_snd_promo _ _ rfl⟩
  · intro x hx a b
    rw [sendAppendEntries_snd_promo _ _ rfl] at hx
    obtain ⟨i, _, hi⟩ := List.mem_map.1 hx
    rw [← hi]
    simp

/-- Closed instantiation of `instant_promotion_effects` at a concrete
Primary sub-leader. -/
theorem instant_promotion_effects_witness :
    (checkTimers c4node 10 0 0 3).1.state = Role.candidate ∧
    (checkTimers c4node 10 0 0 3).1.current_term = 6 ∧
    (checkTimers c4node 10 0 0 3).1.voted_for = some 0 ∧
    (∃ sl, (checkTimers c4node 10 0 0 3).2 = (peersOf c4node).map (fun i =>
      (i, ⟨0, 6, MData.ae 0 0 [] 1 sl⟩))) := by
  have h := instant_promotion_effects c4node 10 0 0 3 rfl rfl
    (by norm_num [c4node, node0]) rfl rfl (by norm_num)
  exact ⟨h.1, h.2.1, h.2.2.1, h.2.2.2.2.2.1⟩

/-! ## Claim C5 -/

theorem becomeLeaderFromPromotion_fst_state (n : Node) (now : ℚ) :
    ((becomeLeaderFromPromotion n now).1).state = Role.leader := by
  unfold becomeLeaderFromPromotion initLogTracking
  dsimp only
  rw [sendAppendEntries_fst_state]

theorem ackLeaderBlock_state (n : Node) (now : ℚ) (sender mi : ℕ) (success : Bool) :
    (ackLeaderBlock n now sender mi success).state = n.state := by
  unfold ackLeaderBlock; dsimp only; split_ifs <;> rfl

theorem ackRttBlock_state (n : Node) (now : ℚ) (sender : ℕ) (success : Bool) :
    (ackRttBlock n now sender success).state = n.state := by
  unfold ackRttBlock; dsimp only; split_ifs <;> rfl

/-- C5: while a promotion is pending, a promoting Candidate becomes
Leader on a fresh successful AppendAck exactly when the distinct-sender
set (which started as `{self}`) reaches `floor(N/2)+1`; and a timer tick
past `promotion_timeout` never leaves it a Candidate with the promotion
still pending — if the majority is there it becomes Leader, otherwise it
steps down to Follower and `promotion_failures` is incremented. -/
theorem promotion_majority_and_timeout :
    (∀ (n : Node) (now u1 u2 u3 : ℚ) (sender mi : ℕ),
      n.state = Role.candidate → n.is_promotion_pending = true →
      sender ∉ n.promotion_ack_nodes →
      ((handleMessage n now u1 u2 u3 ⟨sender, n.current_term, MData.ack true mi⟩).1.state
          = Role.leader
        ↔ n.total_nodes / 2 + 1 ≤ (insert sender n.promotion_ack_nodes).card)) ∧
    (∀ (n : Node) (now u1 u2 : ℚ) (connected : ℕ),
      n.state = Role.candidate → n.is_promotion_pending = true →
      now - n.promotion_start_time > n.config.promotion_timeout →
      ¬((checkTimers n now u1 u2 connected).1.state = Role.candidate ∧
          (checkTimers n now u1 u2 connected).1.is_promotion_pending = true) ∧
        (n.promotion_ack_nodes.card < n.total_nodes / 2 + 1 →
          (checkTimers n now u1 u2 connected).1.state = Role.follower ∧
          (checkTimers n now u1 u2 connected).1.stats.promotion_failures
            = n.stats.promotion_failures + 1)) := by
  constructor
  · intro n now u1 u2 u3 sender mi hcand hpend hnotin
    unfold handleMessage
    dsimp only
    rw [if_neg (lt_irrefl _)]
    unfold handleAppendAck
    dsimp only
    rw [if_neg (by simp [hcand]), if_neg (lt_irrefl _), if_neg (lt_irrefl _),
      if_neg (by simp)]
    dsimp only
    rw [ackRttBlock_state, ackLeaderBlock_state]
    unfold ackPromotionBlock
    dsimp only
    rw [if_pos ⟨hpend, rfl, hnotin⟩]
    by_cases hm : n.total_nodes / 2 + 1 ≤ (insert sender n.promotion_ack_nodes).card
    · rw [if_pos ⟨hm, hcand⟩]
      rw [becomeLeaderFromPromotion_fst_state]
      simp [hm]
    · rw [if_neg (fun h => hm h.1)]
      simp [hcand, hm]
  · intro n now u1 u2 connected hcand hpend htime
    have hckt : checkTimers n now u1 u2 connected
        = checkPromotionSuccess n now u1 := by
      unfold checkTimers
      rw [if_neg (by simp [hcand]), if_pos hcand, if_pos hpend]
    rw [hckt]
    unfold checkPromotionSuccess
    dsimp only
    by_cases hm : n.total_nodes / 2 + 1 ≤ n.promotion_ack_nodes.card
    · rw [if_pos ⟨hm, hcand⟩]
      constructor
      · rw [becomeLeaderFromPromotion_fst_state]
        simp
      · intro hlt
        omega
    · rw [if_neg (fun h => hm h.1), if_pos htime]
      constructor
      · rw [stepDown_state]
        simp
      · intro _
        exact ⟨stepDown_state _ _ _, rfl⟩

/-- Closed instantiation of `promotion_majority_and_timeout`: a concrete
N=3 promoting Candidate becomes Leader on the second distinct ack, and a
tick 1 s after `promotion_start_time` with only its own ack steps it down
with one recorded promotion failure. -/
theorem promotion_majority_and_timeout_witness :
    ((handleMessage c5node 0 0 0 0 ⟨1, 6, MData.ack true 0⟩).1.state = Role.leader
      ↔ (2 : ℕ) ≤ (insert 1 ({0} : Finset ℕ)).card) ∧
    ((checkTimers c5node 1 0 0 3).1.state = Role.follower ∧
      (checkTimers c5node 1 0 0 3).1.stats.promotion_failures = 1) := by
  constructor
  · exact promotion_majority_and_timeout.1 c5node 0 0 0 0 1 0 rfl rfl (by decide)
  · exact (promotion_majority_and_timeout.2 c5node 1 0 0 3 rfl rfl
      (by norm_num [c5node, node0])).2 (by decide)

/-! ## Claim C10 -/

/-- C10 counterexample: a Follower with `consecutive_election_failures = 3`
whose timeout expires while `connected_count() = 1 < 2` takes the
election-backoff branch: no election is started, but the new election
timeout exceeds the freshly drawn base timeout by
`min(3 s, 2^(k−2)·100 ms) = 200 ms`, outside the claimed `[500 ms, 1500 ms]`. -/
theorem gated_timeout_extension_backoff_counterexample :
    (checkTimers c10node 10 0 0 1).1.state = Role.follower ∧
    (checkTimers c10node 10 0 0 1).1.current_term = c10node.current_term ∧
    (checkTimers c10node 10 0 0 1).1.voted_for = c10node.voted_for ∧
    (checkTimers c10node 10 0 0 1).1.election_timeout
        - resetElectionTimer c10node 0 = 1/5 ∧
    ¬(1/2 ≤ (1/5 : ℚ) ∧ (1/5 : ℚ) ≤ 3/2) := by
  have h : checkTimers c10node 10 0 0 1 = startElection c10node 10 0 0 1 := by
    unfold checkTimers
    rw [if_neg (by decide), if_neg (by decide)]
    dsimp only
    simp only [show c10node.startup_grace_period = false from rfl,
      Bool.false_eq_true, false_and, if_false]
    rw [if_pos (by norm_num [c10node, node0] :
        (10:ℚ) - c10node.last_heartbeat ≥ c10node.election_timeout),
      if_neg (by simp [c10node, node0] :
        ¬(c10node.config.enable_subleader = true ∧ c10node.is_sub_leader = true))]
  rw [h]
  unfold startElection
  rw [if_pos (by norm_num [c10node, node0])]
  dsimp only
  rw [if_neg (by norm_num [c10node, node0])]
  refine ⟨rfl, rfl, rfl, ?_, by norm_num⟩
  show resetElectionTimer c10node 0
      + min 3 ((2:ℚ) ^ (c10node.consecutive_election_failures - 2) * (1/10))
      - resetElectionTimer c10node 0 = 1/5
  norm_num [c10node, node0]

/-- C10 as amended: when a Follower's election timeout expires with
`connected_count() < 2`, provided the node is on the sub-leader path or
has fewer than 3 consecutive election failures (i.e. the backoff branch
of `_start_election` is not active), neither an instant promotion nor a
standard election is started (role, `current_term`, `voted_for` unchanged,
nothing sent), and the new election timeout exceeds the freshly drawn
base timeout by `uniform(0.5 s, 1.0 s) ⊆ [500 ms, 1500 ms]`.  (With the
backoff active the extension is `min(3 s, 2^(k−2)·100 ms)` instead.) -/
theorem gated_timeout_extension_range
    (n : Node) (now u1 u2 : ℚ) (connected : ℕ)
    (hf : n.state = Role.follower)
    (hg : n.startup_grace_period = false)
    (hto : now - n.last_heartbeat ≥ n.election_timeout)
    (hc : connected < 2)
    (hbk : (n.config.enable_subleader = true ∧ n.is_sub_leader = true) ∨
           n.consecutive_election_failures < 3)
    (hu : 0 ≤ u2 ∧ u2 ≤ 1) :
    (checkTimers n now u1 u2 connected).1.state = Role.follower ∧
    (checkTimers n now u1 u2 connected).1.current_term = n.current_term ∧
    (checkTimers n now u1 u2 connected).1.voted_for = n.voted_for ∧
    (checkTimers n now u1 u2 connected).2 = [] ∧
    1/2 ≤ (checkTimers n now u1 u2 connected).1.election_timeout
        - resetElectionTimer n u1 ∧
    (checkTimers n now u1 u2 connected).1.election_timeout
        - resetElectionTimer n u1 ≤ 3/2 := by
  have hext1 : (1:ℚ)/2 ≤ uniform (1/2) 1 u2 := by
    unfold uniform; nlinarith [hu.1, hu.2]
  have hext2 : uniform (1/2) 1 u2 ≤ 3/2 := by
    unfold uniform; nlinarith [hu.1, hu.2]
  have hbase : checkTimers n now u1 u2 connected
      = if n.config.enable_subleader ∧ n.is_sub_leader
        then instantPromotion n now u1 u2 connected
        else startElection n now u1 u2 connected := by
    unfold checkTimers
    rw [if_neg (by simp [hf]), if_neg (by simp [hf])]
    dsimp only
    simp only [hg, Bool.false_eq_true, false_and, if_false]
    rw [if_pos hto]
  rw [hbase]
  by_cases hs : n.config.enable_subleader ∧ n.is_sub_leader
  · rw [if_pos hs]
    unfold instantPromotion
    rw [if_pos hc]
    refine ⟨hf, rfl, rfl, rfl, ?_, ?_⟩
    · show 1/2 ≤ resetElectionTimer n u1 + uniform (1/2) 1 u2 - resetElectionTimer n u1
      linarith
    · show resetElectionTimer n u1 + uniform (1/2) 1 u2 - resetElectionTimer n u1 ≤ 3/2
      linarith
  · rw [if_neg hs]
    have hlt : n.consecutive_election_failures < 3 := by
      rcases hbk with h | h
      · exact absurd ⟨h.1, h.2⟩ hs
      · exact h
    unfold startElection
    rw [if_neg (by omega), if_pos hc]
    refine ⟨hf, rfl, rfl, rfl, ?_, ?_⟩
    · show 1/2 ≤ resetElectionTimer n u1 + uniform (1/2) 1 u2 - resetElectionTimer n u1
      linarith
    · show resetElectionTimer n u1 + uniform (1/2) 1 u2 - resetElectionTimer n u1 ≤ 3/2
      linarith

/-- Closed instantiation of `gated_timeout_extension_range` at a concrete
sub-leader Follower with only itself connected. -/
theorem gated_timeout_extension_range_witness :
    (checkTimers c4node 10 0 0 1).1.state = Role.follower ∧
    (checkTimers c4node 10 0 0 1).1.current_term = 5 ∧
    (checkTimers c4node 10 0 0 1).2 = [] ∧
    1/2 ≤ (checkTimers c4node 10 0 0 1).1.election_timeout
        - resetElectionTimer c4node 0 := by
  have h := gated_timeout_extension_range c4node 10 0 0 1 rfl rfl
    (by norm_num [c4node, node0]) (by norm_num) (Or.inl ⟨rfl, rfl⟩)
    (by norm_num)
  exact ⟨h.1, h.2.1, h.2.2.2.1, h.2.2.2.2.1⟩

/-! ## Claim C3 -/

theorem becomeLeaderFromPromotion_fst_log (n : Node) (now : ℚ) :
    ((becomeLeaderFromPromotion n now).1).log = n.log := by
  unfold becomeLeaderFromPromotion initLogTracking
  dsimp only
  rw [sendAppendEntries_fst_log]

theorem becomeLeaderFromPromotion_fst_last_applied (n : Node) (now : ℚ) :
    ((becomeLeaderFromPromotion n now).1).last_applied = n.last_applied := by
  unfold becomeLeaderFromPromotion initLogTracking
  dsimp only
  rw [sendAppendEntries_fst_last_applied]

theorem becomeLeaderFromElection_fst_commit_index (n : Node) (now : ℚ) :
    ((becomeLeaderFromElection n now).1).commit_index = n.commit_index := by
  unfold becomeLeaderFromElection initLogTracking
  dsimp only
  rw [sendAppendEntries_fst_commit_index]

theorem becomeLeaderFromElection_fst_log (n : Node) (now : ℚ) :
    ((becomeLeaderFromElection n now).1).log = n.log := by
  unfold becomeLeaderFromElection initLogTracking
  dsimp only
  rw [sendAppendEntries_fst_log]

theorem becomeLeaderFromElection_fst_last_applied (n : Node) (now : ℚ) :
    ((becomeLeaderFromElection n now).1).last_applied = n.last_applied := by
  unfold becomeLeaderFromElection initLogTracking
  dsimp only
  rw [sendAppendEntries_fst_last_applied]

theorem checkPromotionSuccess_fst_commit_index (n : Node) (now u : ℚ) :
    ((checkPromotionSuccess n now u).1).commit_index = n.commit_index := by
  unfold checkPromotionSuccess
  dsimp only
  split_ifs <;> simp [becomeLeaderFromPromotion_fst_commit_index, stepDown_commit_index]

theorem checkPromotionSuccess_fst_log (n : Node) (now u : ℚ) :
    ((checkPromotionSuccess n now u).1).log = n.log := by
  unfold checkPromotionSuccess
  dsimp only
  split_ifs <;> simp [becomeLeaderFromPromotion_fst_log, stepDown_log]

theorem checkPromotionSuccess_fst_last_applied (n : Node) (now u : ℚ) :
    ((checkPromotionSuccess n now u).1).last_applied = n.last_applied := by
  unfold checkPromotionSuccess
  dsimp only
  split_ifs <;> simp [becomeLeaderFromPromotion_fst_last_applied, stepDown_last_applied]

theorem instantPromotion_fst_commit_index (n : Node) (now u1 u2 : ℚ) (connected : ℕ) :
    ((instantPromotion n now u1 u2 connected).1).commit_index = n.commit_index := by
  unfold instantPromotion
  dsimp only
  split_ifs <;> simp [sendAppendEntries_fst_commit_index]

theorem instantPromotion_fst_log (n : Node) (now u1 u2 : ℚ) (connected : ℕ) :
    ((instantPromotion n now u1 u2 connected).1).log = n.log := by
  unfold instantPromotion
  dsimp only
  split_ifs <;> simp [sendAppendEntries_fst_log]

theorem instantPromotion_fst_last_applied (n : Node) (now u1 u2 : ℚ) (connected : ℕ) :
    ((instantPromotion n now u1 u2 connected).1).last_applied = n.last_applied := by
  unfold instantPromotion
  dsimp only
  split_ifs <;> simp [sendAppendEntries_fst_last_applied]

theorem startElection_fst_commit_index (n : Node) (now u1 u2 : ℚ) (connected : ℕ) :
    ((startElection n now u1 u2 connected).1).commit_index = n.commit_index := by
  unfold startElection
  dsimp only
  split_ifs <;> rfl

theorem startElection_fst_log (n : Node) (now u1 u2 : ℚ) (connected : ℕ) :
    ((startElection n now u1 u2 connected).1).log = n.log := by
  unfold startElection
  dsimp only
  split_ifs <;> rfl

theorem startElection_fst_last_applied (n : Node) (now u1 u2 : ℚ) (connected : ℕ) :
    ((startElection n now u1 u2 connected).1).last_applied = n.last_applied := by
  unfold startElection
  dsimp only
  split_ifs <;> rfl

theorem checkTimers_fst_commit_index (n : Node) (now u1 u2 : ℚ) (connected : ℕ) :
    ((checkTimers n now u1 u2 connected).1).commit_index = n.commit_index := by
  unfold checkTimers
  dsimp only
  split_ifs <;>
    simp [checkPromotionSuccess_fst_commit_index, stepDown_commit_index,
      sendAppendEntries_fst_commit_index, instantPromotion_fst_commit_index,
      startElection_fst_commit_index]

theorem checkTimers_fst_log (n : Node) (now u1 u2 : ℚ) (connected : ℕ) :
    ((checkTimers n now u1 u2 connected).1).log = n.log := by
  unfold checkTimers
  dsimp only
  split_ifs <;>
    simp [checkPromotionSuccess_fst_log, stepDown_log,
      sendAppendEntries_fst_log, instantPromotion_fst_log, startElection_fst_log]

theorem checkTimers_fst_last_applied (n : Node) (now u1 u2 : ℚ) (connected : ℕ) :
    ((checkTimers n now u1 u2 connected).1).last_applied = n.last_applied := by
  unfold checkTimers
  dsimp only
  split_ifs <;>
    simp [checkPromotionSuccess_fst_last_applied, stepDown_last_applied,
      sendAppendEntries_fst_last_applied, instantPromotion_fst_last_applied,
      startElection_fst_last_applied]

theorem ackPromotionBlock_fst_log (n : Node) (now : ℚ) (sender : ℕ) (success : Bool) :
    ((ackPromotionBlock n now sender success).1).log = n.log := by
  unfold ackPromotionBlock
  dsimp only
  split_ifs <;> simp [becomeLeaderFromPromotion_fst_log]

theorem ackPromotionBlock_fst_last_applied (n : Node) (now : ℚ) (sender : ℕ) (success : Bool) :
    ((ackPromotionBlock n now sender success).1).last_applied = n.last_applied := by
  unfold ackPromotionBlock
  dsimp only
  split_ifs <;> simp [becomeLeaderFromPromotion_fst_last_applied]

theorem ackLeaderBlock_log (n : Node) (now : ℚ) (sender mi : ℕ) (success : Bool) :
    (ackLeaderBlock n now sender mi success).log = n.log := by
  unfold ackLeaderBlock; dsimp only; split_ifs <;> rfl

theorem ackLeaderBlock_last_applied (n : Node) (now : ℚ) (sender mi : ℕ) (success : Bool) :
    (ackLeaderBlock n now sender mi success).last_applied = n.last_applied := by
  unfold ackLeaderBlock; dsimp only; split_ifs <;> rfl

theorem ackRttBlock_log (n : Node) (now : ℚ) (sender : ℕ) (success : Bool) :
    (ackRttBlock n now sender success).log = n.log := by
  unfold ackRttBlock; dsimp only; split_ifs <;> rfl

theorem ackRttBlock_last_applied (n : Node) (now : ℚ) (sender : ℕ) (success : Bool) :
    (ackRttBlock n now sender success).last_applied = n.last_applied := by
  unfold ackRttBlock; dsimp only; split_ifs <;> rfl

theorem handleAppendAck_fst_log
    (n : Node) (now u : ℚ) (sender mterm : ℕ) (success : Bool) (mi : ℕ) :
    ((handleAppendAck n now u sender mterm success mi).1).log = n.log := by
  unfold handleAppendAck
  dsimp only
  split_ifs <;>
    simp [ackRttBlock_log, ackLeaderBlock_log, ackPromotionBlock_fst_log, stepDown_log]

theorem handleAppendAck_fst_last_applied
    (n : Node) (now u : ℚ) (sender mterm : ℕ) (success : Bool) (mi : ℕ) :
    ((handleAppendAck n now u sender mterm success mi).1).last_applied
      = n.last_applied := by
  unfold handleAppendAck
  dsimp only
  split_ifs <;>
    simp [ackRttBlock_last_applied, ackLeaderBlock_last_applied,
      ackPromotionBlock_fst_last_applied, stepDown_last_applied]

theorem handleRequestVote_fst_commit_index
    (n : Node) (now : ℚ) (sender mterm lli llt : ℕ) :
    ((handleRequestVote n now sender mterm lli llt).1).commit_index
      = n.commit_index := by
  unfold handleRequestVote
  dsimp only
  split_ifs <;> rfl

theorem handleRequestVote_fst_log
    (n : Node) (now : ℚ) (sender mterm lli llt : ℕ) :
    ((handleRequestVote n now sender mterm lli llt).1).log = n.log := by
  unfold handleRequestVote
  dsimp only
  split_ifs <;> rfl

theorem handleRequestVote_fst_last_applied
    (n : Node) (now : ℚ) (sender mterm lli llt : ℕ) :
    ((handleRequestVote n now sender mterm lli llt).1).last_applied
      = n.last_applied := by
  unfold handleRequestVote
  dsimp only
  split_ifs <;> rfl

theorem handleVoteResponse_fst_commit_index
    (n : Node) (now u : ℚ) (sender mterm : ℕ) (granted : Bool) :
    ((handleVoteResponse n now u sender mterm granted).1).commit_index
      = n.commit_index := by
  unfold handleVoteResponse
  dsimp only
  split_ifs <;>
    simp [becomeLeaderFromElection_fst_commit_index, stepDown_commit_index]

theorem handleVoteResponse_fst_log
    (n : Node) (now u : ℚ) (sender mterm : ℕ) (granted : Bool) :
    ((handleVoteResponse n now u sender mterm granted).1).log = n.log := by
  unfold handleVoteResponse
  dsimp only
  split_ifs <;> simp [becomeLeaderFromElection_fst_log, stepDown_log]

theorem handleVoteResponse_fst_last_applied
    (n : Node) (now u : ℚ) (sender mterm : ℕ) (granted : Bool) :
    ((handleVoteResponse n now u sender mterm granted).1).last_applied
      = n.last_applied := by
  unfold handleVoteResponse
  dsimp only
  split_ifs <;> simp [becomeLeaderFromElection_fst_last_applied, stepDown_last_applied]

theorem applyCommitted_log (n : Node) : (applyCommitted n).log = n.log := by
  rw [applyCommitted_eq]

theorem applyCommitted_commit_index (n : Node) :
    (applyCommitted n).commit_index = n.commit_index := by
  rw [applyCommitted_eq]

theorem applyCommitted_last_applied (n : Node) :
    (applyCommitted n).last_applied = max n.last_applied n.commit_index := by
  rw [applyCommitted_eq]

/-- Preservation of the commit/apply invariant by the AppendEntries
receiver, under the no-truncation-below-commit side conditions. -/
theorem handleAppendEntries_commitInv
    (n : Node) (now u2 u3 : ℚ) (sender mterm p pt : ℕ)
    (entries : List LogEntry) (lc : ℕ) (sl : List (ℕ × ℕ))
    (hinv : CommitInv n)
    (hs1 : entries ≠ [] → n.commit_index ≤ p)
    (hs2 : 0 < p → p ≤ n.log.length →
      (n.log.getD (p - 1) ⟨0, 0, 0⟩).term ≠ pt → n.commit_index ≤ p - 1) :
    CommitInv (handleAppendEntries n now u2 u3 sender mterm p pt entries lc sl).1 := by
  obtain ⟨hla, hcl⟩ := hinv
  unfold handleAppendEntries
  dsimp only
  simp only [aeSubleaders_log, aeAdopt_log, aeSubleaders_commit_index,
    aeAdopt_commit_index, aeSubleaders_last_applied, aeAdopt_last_applied]
  split_ifs with h1 h2 h3 h4 h5 h6
  · exact ⟨hla, hcl⟩
  · simp only [CommitInv, aeSubleaders_log, aeAdopt_log,
      aeSubleaders_commit_index, aeAdopt_commit_index,
      aeSubleaders_last_applied, aeAdopt_last_applied]
    exact ⟨hla, hcl⟩
  · -- mismatch truncation: log := take (p − 1), commit unchanged
    simp only [CommitInv, aeSubleaders_log, aeAdopt_log,
      aeSubleaders_commit_index, aeAdopt_commit_index,
      aeSubleaders_last_applied, aeAdopt_last_applied, List.length_take]
    have hc := hs2 h3.1 (by omega) h3.2
    omega
  · -- entries appended, commit bumped and applied
    have hcp := hs1 h4
    simp only [aeSubleaders_log, aeAdopt_log, aeSubleaders_commit_index,
      aeAdopt_commit_index] at h5
    simp only [CommitInv, applyCommitted_eq, aeSubleaders_log, aeAdopt_log,
      aeSubleaders_commit_index, aeAdopt_commit_index,
      aeSubleaders_last_applied, aeAdopt_last_applied,
      List.length_take, List.length_append] at h5 ⊢
    omega
  · -- entries appended, no commit bump
    have hcp := hs1 h4
    simp only [CommitInv, aeSubleaders_log, aeAdopt_log,
      aeSubleaders_commit_index, aeAdopt_commit_index,
      aeSubleaders_last_applied, aeAdopt_last_applied,
      List.length_take, List.length_append]
    omega
  · -- no entries, commit bumped and applied
    simp only [aeSubleaders_log, aeAdopt_log, aeSubleaders_commit_index,
      aeAdopt_commit_index] at h6
    simp only [CommitInv, applyCommitted_eq, aeSubleaders_log, aeAdopt_log,
      aeSubleaders_commit_index, aeAdopt_commit_index,
      aeSubleaders_last_applied, aeAdopt_last_applied] at h6 ⊢
    omega
  · simp only [CommitInv, aeSubleaders_log, aeAdopt_log,
      aeSubleaders_commit_index, aeAdopt_commit_index,
      aeSubleaders_last_applied, aeAdopt_last_applied]
    exact ⟨hla, hcl⟩

/-- C3 counterexample: a node with `log = [(term 1)]`, `commit_index =
last_applied = 1` (the invariant holds) receives an AppendEntries with
`prev_log_index = 1`, `prev_log_term = 2 ≠ 1`: the log is truncated to
empty while `commit_index` stays 1, so `commit_index ≤ |log|` is broken
by the truncate-on-mismatch path. -/
theorem commit_le_log_violated_by_truncation :
    (handleMessage c3node 0 0 0 0 ⟨1, 1, MData.ae 1 2 [] 0 []⟩).1.commit_index = 1 ∧
    (handleMessage c3node 0 0 0 0 ⟨1, 1, MData.ae 1 2 [] 0 []⟩).1.log = [] ∧
    ¬CommitInv (handleMessage c3node 0 0 0 0 ⟨1, 1, MData.ae 1 2 [] 0 []⟩).1 := by
  have hw : handleMessage c3node 0 0 0 0 ⟨1, 1, MData.ae 1 2 [] 0 []⟩
      = handleAppendEntries c3node 0 0 0 1 1 1 2 [] 0 [] := by
    unfold handleMessage
    dsimp only
    rw [if_neg (by decide)]
  have h := (handleAppendEntries_reject c3node 0 0 0 1 1 1 2 [] 0 []
    (by decide) (by decide)).2 (by decide) (by decide)
  rw [hw]
  refine ⟨h.2.1, ?_, ?_⟩
  · rw [h.1]; rfl
  · intro hc
    rw [CommitInv, h.1, h.2.1] at hc
    revert hc
    decide

/-- C3 as amended: after every single operation (message reception, timer
tick, `submit_command`), `last_applied ≤ commit_index ≤ |log|` is
preserved, provided an AppendEntries reception does not truncate the log
below `commit_index` (`SafeEvent`): appended entries require
`commit_index ≤ prev_log_index`, and a `prev_log_term` mismatch requires
`commit_index ≤ prev_log_index − 1`.  The counterexample shows the
unconditional claim false on the mismatch path. -/
theorem commit_apply_invariant_preserved
    (n : Node) (e : Event) (hinv : CommitInv n) (hsafe : SafeEvent n e) :
    CommitInv (stepEv n e).1 := by
  cases e with
  | submit command =>
    obtain ⟨hla, hcl⟩ := hinv
    unfold stepEv submitCommand
    dsimp only
    split_ifs
    · exact ⟨hla, hcl⟩
    · refine ⟨hla, ?_⟩
      simp only [List.length_append, List.length_cons, List.length_nil]
      omega
  | tick now u1 u2 connected =>
    unfold stepEv
    unfold CommitInv at hinv ⊢
    rw [checkTimers_fst_commit_index, checkTimers_fst_log,
      checkTimers_fst_last_applied]
    exact hinv
  | deliver now u1 u2 u3 msg =>
    obtain ⟨sender, mterm, data⟩ := msg
    unfold stepEv handleMessage
    dsimp only
    have hn0 : CommitInv (if mterm > n.current_term then
        stepDown { n with current_term := mterm } now u1 else n) := by
      split_ifs
      · unfold CommitInv
        rw [stepDown_commit_index, stepDown_log, stepDown_last_applied]
        exact hinv
      · exact hinv
    cases data with
    | ae p pt entries lc sl =>
      obtain ⟨hs1, hs2⟩ := hsafe
      refine handleAppendEntries_commitInv _ now u2 u3 sender mterm p pt entries lc sl
        hn0 ?_ ?_
      · intro he
        split_ifs with h
        · rw [stepDown_commit_index]
          exact hs1 he
        · exact hs1 he
      · split_ifs with h
        · rw [stepDown_commit_index, stepDown_log]
          exact hs2
        · exact hs2
    | ack success mi =>
      unfold CommitInv at hn0 ⊢
      rw [handleAppendAck_fst_commit_index, handleAppendAck_fst_log,
        handleAppendAck_fst_last_applied]
      exact hn0
    | rv lli llt =>
      unfold CommitInv at hn0 ⊢
      rw [handleRequestVote_fst_commit_index, handleRequestVote_fst_log,
        handleRequestVote_fst_last_applied]
      exact hn0
    | vr granted =>
      unfold CommitInv at hn0 ⊢
      rw [handleVoteResponse_fst_commit_index, handleVoteResponse_fst_log,
        handleVoteResponse_fst_last_applied]
      exact hn0

/-- Closed instantiation of `commit_apply_invariant_preserved`: the
concrete state of the counterexample receiving a safe AppendEntries
(matching `prev_log_term`) keeps the invariant. -/
theorem commit_apply_invariant_preserved_witness :
    CommitInv (stepEv c3node
      (Event.deliver 0 0 0 0 ⟨1, 1, MData.ae 1 1 [⟨1, 5, 2⟩] 2 []⟩)).1 :=
  commit_apply_invariant_preserved c3node
    (Event.deliver 0 0 0 0 ⟨1, 1, MData.ae 1 1 [⟨1, 5, 2⟩] 2 []⟩)
    (by constructor <;> decide) (by constructor <;> decide)

/-! ## Claim C1: projection battery for state / voted_for / current_term / id -/

theorem stepDown_id (n : Node) (now u : ℚ) : (stepDown n now u).id = n.id := rfl

theorem applyCommitted_voted_for (n : Node) :
    (applyCommitted n).voted_for = n.voted_for := by rw [applyCommitted_eq]

theorem applyCommitted_state (n : Node) :
    (applyCommitted n).state = n.state := by rw [applyCommitted_eq]

theorem applyCommitted_current_term (n : Node) :
    (applyCommitted n).current_term = n.current_term := by rw [applyCommitted_eq]

theorem applyCommitted_id (n : Node) :
    (applyCommitted n).id = n.id := by rw [applyCommitted_eq]

theorem becomeLeaderFromPromotion_fst_voted_for (n : Node) (now : ℚ) :
    ((becomeLeaderFromPromotion n now).1).voted_for = n.voted_for := by
  unfold becomeLeaderFromPromotion initLogTracking
  dsimp only
  rw [sendAppendEntries_fst_voted_for]

theorem becomeLeaderFromPromotion_fst_current_term (n : Node) (now : ℚ) :
    ((becomeLeaderFromPromotion n now).1).current_term = n.current_term := by
  unfold becomeLeaderFromPromotion initLogTracking
  dsimp only
  rw [sendAppendEntries_fst_current_term]

theorem becomeLeaderFromPromotion_fst_id (n : Node) (now : ℚ) :
    ((becomeLeaderFromPromotion n now).1).id = n.id := by
  unfold becomeLeaderFromPromotion initLogTracking
  dsimp only
  rw [sendAppendEntries_fst_id]

theorem becomeLeaderFromElection_fst_voted_for (n : Node) (now : ℚ) :
    ((becomeLeaderFromElection n now).1).voted_for = n.voted_for := by
  unfold becomeLeaderFromElection initLogTracking
  dsimp only
  rw [sendAppendEntries_fst_voted_for]

theorem becomeLeaderFromElection_fst_current_term (n : Node) (now : ℚ) :
    ((becomeLeaderFromElection n now).1).current_term = n.current_term := by
  unfold becomeLeaderFromElection initLogTracking
  dsimp only
  rw [sendAppendEntries_fst_current_term]

theorem becomeLeaderFromElection_fst_id (n : Node) (now : ℚ) :
    ((becomeLeaderFromElection n now).1).id = n.id := by
  unfold becomeLeaderFromElection initLogTracking
  dsimp only
  rw [sendAppendEntries_fst_id]

theorem becomeLeaderFromElection_fst_state (n : Node) (now : ℚ) :
    ((becomeLeaderFromElection n now).1).state = Role.leader := by
  unfold becomeLeaderFromElection initLogTracking
  dsimp only
  rw [sendAppendEntries_fst_state]

theorem ackPromotionBlock_fst_voted_for
    (n : Node) (now : ℚ) (sender : ℕ) (success : Bool) :
    ((ackPromotionBlock n now sender success).1).voted_for = n.voted_for := by
  unfold ackPromotionBlock
  dsimp only
  split_ifs <;> simp [becomeLeaderFromPromotion_fst_voted_for]

theorem ackPromotionBlock_fst_current_term
    (n : Node) (now : ℚ) (sender : ℕ) (success : Bool) :
    ((ackPromotionBlock n now sender success).1).current_term = n.current_term := by
  unfold ackPromotionBlock
  dsimp only
  split_ifs <;> simp [becomeLeaderFromPromotion_fst_current_term]

theorem ackPromotionBlock_fst_id
    (n : Node) (now : ℚ) (sender : ℕ) (success : Bool) :
    ((ackPromotionBlock n now sender success).1).id = n.id := by
  unfold ackPromotionBlock
  dsimp only
  split_ifs <;> simp [becomeLeaderFromPromotion_fst_id]

/-- The promotion-ack block either keeps the role or promotes a Candidate
to Leader. -/
theorem ackPromotionBlock_fst_state
    (n : Node) (now : ℚ) (sender : ℕ) (success : Bool) :
    ((ackPromotionBlock n now sender success).1).state = n.state ∨
    (((ackPromotionBlock n now sender success).1).state = Role.leader ∧
      n.state = Role.candidate) := by
  unfold ackPromotionBlock
  dsimp only
  split_ifs with h1 h2
  · exact Or.inr ⟨becomeLeaderFromPromotion_fst_state _ _, h2.2⟩
  · exact Or.inl rfl
  · exact Or.inl rfl

theorem ackLeaderBlock_voted_for (n : Node) (now : ℚ) (sender mi : ℕ) (success : Bool) :
    (ackLeaderBlock n now sender mi success).voted_for = n.voted_for := by
  unfold ackLeaderBlock; dsimp only; split_ifs <;> rfl

theorem ackLeaderBlock_current_term (n : Node) (now : ℚ) (sender mi : ℕ) (success : Bool) :
    (ackLeaderBlock n now sender mi success).current_term = n.current_term := by
  unfold ackLeaderBlock; dsimp only; split_ifs <;> rfl

theorem ackLeaderBlock_id (n : Node) (now : ℚ) (sender mi : ℕ) (success : Bool) :
    (ackLeaderBlock n now sender mi success).id = n.id := by
  unfold ackLeaderBlock; dsimp only; split_ifs <;> rfl

theorem ackRttBlock_voted_for (n : Node) (now : ℚ) (sender : ℕ) (success : Bool) :
    (ackRttBlock n now sender success).voted_for = n.voted_for := by
  unfold ackRttBlock; dsimp only; split_ifs <;> rfl

theorem ackRttBlock_current_term (n : Node) (now : ℚ) (sender : ℕ) (success : Bool) :
    (ackRttBlock n now sender success).current_term = n.current_term := by
  unfold ackRttBlock; dsimp only; split_ifs <;> rfl

theorem ackRttBlock_id (n : Node) (now : ℚ) (sender : ℕ) (success : Bool) :
    (ackRttBlock n now sender success).id = n.id := by
  unfold ackRttBlock; dsimp only; split_ifs <;> rfl

/-! ## Claim C1: handler-level facts -/

theorem handleAppendAck_fst_voted_for_of_le
    (n : Node) (now u : ℚ) (sender mterm : ℕ) (success : Bool) (mi : ℕ)
    (h : mterm ≤ n.current_term) :
    ((handleAppendAck n now u sender mterm success mi).1).voted_for
      = n.voted_for := by
  unfold handleAppendAck
  dsimp only
  split_ifs <;>
    first
    | rfl
    | omega
    | simp [ackRttBlock_voted_for, ackLeaderBlock_voted_for,
        ackPromotionBlock_fst_voted_for, stepDown_voted_for]

theorem handleAppendAck_fst_current_term
    (n : Node) (now u : ℚ) (sender mterm : ℕ) (success : Bool) (mi : ℕ) :
    ((handleAppendAck n now u sender mterm success mi).1).current_term
      = n.current_term := by
  unfold handleAppendAck
  dsimp only
  split_ifs <;>
    simp [ackRttBlock_current_term, ackLeaderBlock_current_term,
      ackPromotionBlock_fst_current_term, stepDown_current_term]

theorem handleAppendAck_fst_id
    (n : Node) (now u : ℚ) (sender mterm : ℕ) (success : Bool) (mi : ℕ) :
    ((handleAppendAck n now u sender mterm success mi).1).id = n.id := by
  unfold handleAppendAck
  dsimp only
  split_ifs <;>
    simp [ackRttBlock_id, ackLeaderBlock_id, ackPromotionBlock_fst_id, stepDown_id]

theorem handleAppendAck_fst_state_of_le
    (n : Node) (now u : ℚ) (sender mterm : ℕ) (success : Bool) (mi : ℕ)
    (h : mterm ≤ n.current_term) :
    ((handleAppendAck n now u sender mterm success mi).1).state = n.state ∨
    (((handleAppendAck n now u sender mterm success mi).1).state = Role.leader ∧
      n.state = Role.candidate) := by
  unfold handleAppendAck
  dsimp only
  split_ifs <;>
    first
    | exact Or.inl rfl
    | omega
    | (rw [ackRttBlock_state, ackLeaderBlock_state]
       exact ackPromotionBlock_fst_state _ _ _ _)

theorem handleRequestVote_fst_voted_for_of_le
    (n : Node) (now : ℚ) (sender mterm lli llt : ℕ)
    (h : mterm ≤ n.current_term) :
    ((handleRequestVote n now sender mterm lli llt).1).voted_for = n.voted_for ∨
    (((handleRequestVote n now sender mterm lli llt).1).voted_for = some sender ∧
      (n.voted_for = none ∨ n.voted_for = some sender)) := by
  unfold handleRequestVote
  dsimp only
  split_ifs <;>
    first
    | omega
    | exact Or.inl rfl
    | exact Or.inr ⟨rfl, by assumption⟩

theorem handleRequestVote_fst_state_of_le
    (n : Node) (now : ℚ) (sender mterm lli llt : ℕ)
    (h : mterm ≤ n.current_term) :
    ((handleRequestVote n now sender mterm lli llt).1).state = n.state := by
  unfold handleRequestVote
  dsimp only
  split_ifs <;> first | omega | rfl

theorem handleRequestVote_fst_current_term_of_le
    (n : Node) (now : ℚ) (sender mterm lli llt : ℕ)
    (h : mterm ≤ n.current_term) :
    ((handleRequestVote n now sender mterm lli llt).1).current_term
      = n.current_term := by
  unfold handleRequestVote
  dsimp only
  split_ifs <;> first | omega | rfl

theorem handleRequestVote_fst_current_term_ge
    (n : Node) (now : ℚ) (sender mterm lli llt : ℕ) :
    n.current_term ≤ ((handleRequestVote n now sender mterm lli llt).1).current_term := by
  unfold handleRequestVote
  dsimp only
  split_ifs <;> dsimp only <;> omega

theorem handleRequestVote_fst_id
    (n : Node) (now : ℚ) (sender mterm lli llt : ℕ) :
    ((handleRequestVote n now sender mterm lli llt).1).id = n.id := by
  unfold handleRequestVote
  dsimp only
  split_ifs <;> rfl

/-- With the vote already given to `a` and an unchanged term, a
RequestVote from any `sender ≠ a` is answered `vote_granted = false`. -/
theorem handleRequestVote_refuse
    (n : Node) (now : ℚ) (sender mterm lli llt a : ℕ)
    (h : mterm ≤ n.current_term) (hv : n.voted_for = some a) (hne : sender ≠ a) :
    (handleRequestVote n now sender mterm lli llt).2
      = [(sender, ⟨n.id, n.current_term, MData.vr false⟩)] := by
  unfold handleRequestVote
  dsimp only
  split_ifs <;>
    first
    | omega
    | rfl
    | exact absurd (by assumption : n.voted_for = none ∨ n.voted_for = some sender)
        (by rw [hv]
            rintro (hx | hx)
            · cases hx
            · exact hne (Option.some_injective _ hx).symm)

/-- A granted vote response pins `voted_for` to the requester. -/
theorem handleRequestVote_granted_voted
    (n : Node) (now : ℚ) (sender mterm lli llt : ℕ) :
    MData.vr true ∈ (handleRequestVote n now sender mterm lli llt).2.map
      (fun q => q.2.data) →
    ((handleRequestVote n now sender mterm lli llt).1).voted_for = some sender := by
  unfold handleRequestVote
  dsimp only
  split_ifs <;> intro hm <;> first | rfl | simp at hm

theorem handleVoteResponse_fst_voted_for_of_le
    (n : Node) (now u : ℚ) (sender mterm : ℕ) (granted : Bool)
    (h : mterm ≤ n.current_term) :
    ((handleVoteResponse n now u sender mterm granted).1).voted_for
      = n.voted_for := by
  unfold handleVoteResponse
  dsimp only
  split_ifs <;>
    first
    | rfl
    | omega
    | simp [becomeLeaderFromElection_fst_voted_for]

theorem handleVoteResponse_fst_current_term
    (n : Node) (now u : ℚ) (sender mterm : ℕ) (granted : Bool) :
    ((handleVoteResponse n now u sender mterm granted).1).current_term
      = n.current_term := by
  unfold handleVoteResponse
  dsimp only
  split_ifs <;>
    simp [becomeLeaderFromElection_fst_current_term, stepDown_current_term]

theorem handleVoteResponse_fst_id
    (n : Node) (now u : ℚ) (sender mterm : ℕ) (granted : Bool) :
    ((handleVoteResponse n now u sender mterm granted).1).id = n.id := by
  unfold handleVoteResponse
  dsimp only
  split_ifs <;> simp [becomeLeaderFromElection_fst_id, stepDown_id]

theorem handleVoteResponse_fst_state_of_le
    (n : Node) (now u : ℚ) (sender mterm : ℕ) (granted : Bool)
    (h : mterm ≤ n.current_term) :
    ((handleVoteResponse n now u sender mterm granted).1).state = n.state ∨
    (((handleVoteResponse n now u sender mterm granted).1).state = Role.leader ∧
      n.state = Role.candidate) := by
  unfold handleVoteResponse
  dsimp only
  split_ifs <;>
    first
    | exact Or.inl rfl
    | omega
    | exact Or.inr ⟨becomeLeaderFromElection_fst_state _ _,
        not_not.1 (by assumption)⟩

theorem handleAppendEntries_fst_voted_for
    (n : Node) (now u2 u3 : ℚ) (sender mterm p pt : ℕ)
    (entries : List LogEntry) (lc : ℕ) (sl : List (ℕ × ℕ)) :
    ((handleAppendEntries n now u2 u3 sender mterm p pt entries lc sl).1).voted_for
      = n.voted_for := by
  unfold handleAppendEntries
  dsimp only
  split_ifs <;>
    simp [applyCommitted_voted_for, aeSubleaders_voted_for, aeAdopt_voted_for]

theorem handleAppendEntries_fst_id
    (n : Node) (now u2 u3 : ℚ) (sender mterm p pt : ℕ)
    (entries : List LogEntry) (lc : ℕ) (sl : List (ℕ × ℕ)) :
    ((handleAppendEntries n now u2 u3 sender mterm p pt entries lc sl).1).id
      = n.id := by
  unfold handleAppendEntries
  dsimp only
  split_ifs <;> simp [applyCommitted_id, aeSubleaders_id, aeAdopt_id]

theorem handleAppendEntries_fst_state
    (n : Node) (now u2 u3 : ℚ) (sender mterm p pt : ℕ)
    (entries : List LogEntry) (lc : ℕ) (sl : List (ℕ × ℕ)) :
    ((handleAppendEntries n now u2 u3 sender mterm p pt entries lc sl).1).state
      = n.state ∨
    ((handleAppendEntries n now u2 u3 sender mterm p pt entries lc sl).1).state
      = Role.follower := by
  unfold handleAppendEntries
  dsimp only
  split_ifs <;>
    first
    | exact Or.inl rfl
    | exact Or.inr (by simp [applyCommitted_state, aeSubleaders_state, aeAdopt_state])

theorem handleAppendEntries_fst_current_term_eq_or
    (n : Node) (now u2 u3 : ℚ) (sender mterm p pt : ℕ)
    (entries : List LogEntry) (lc : ℕ) (sl : List (ℕ × ℕ)) :
    ((handleAppendEntries n now u2 u3 sender mterm p pt entries lc sl).1).current_term
      = n.current_term ∨
    ((handleAppendEntries n now u2 u3 sender mterm p pt entries lc sl).1).current_term
      = mterm := by
  unfold handleAppendEntries
  dsimp only
  split_ifs <;>
    first
    | exact Or.inl rfl
    | exact Or.inr (by simp [applyCommitted_current_term, aeSubleaders_current_term,
        aeAdopt_current_term])

theorem handleAppendEntries_fst_current_term_ge
    (n : Node) (now u2 u3 : ℚ) (sender mterm p pt : ℕ)
    (entries : List LogEntry) (lc : ℕ) (sl : List (ℕ × ℕ)) :
    n.current_term
      ≤ ((handleAppendEntries n now u2 u3 sender mterm p pt entries lc sl).1).current_term := by
  unfold handleAppendEntries
  dsimp only
  split_ifs <;>
    first
    | (dsimp only; omega)
    | (simp only [applyCommitted_current_term, aeSubleaders_current_term,
        aeAdopt_current_term]
       omega)

/-! ## Claim C1: timer-path facts -/

theorem sendAppendEntries_votedInv (n : Node) (now : ℚ) (hinv : VotedInv n) :
    VotedInv ((sendAppendEntries n now).1) := by
  intro h
  rw [sendAppendEntries_fst_voted_for, sendAppendEntries_fst_id]
  rw [sendAppendEntries_fst_state] at h
  exact hinv h

theorem checkPromotionSuccess_votedInv (n : Node) (now u : ℚ) (hinv : VotedInv n) :
    VotedInv ((checkPromotionSuccess n now u).1) := by
  unfold checkPromotionSuccess
  dsimp only
  split_ifs with h1 h2
  · intro _
    rw [becomeLeaderFromPromotion_fst_voted_for, becomeLeaderFromPromotion_fst_id]
    exact hinv (Or.inl h1.2)
  · intro h
    rw [stepDown_state] at h
    simp at h
  · exact hinv

theorem checkPromotionSuccess_fst_current_term (n : Node) (now u : ℚ) :
    ((checkPromotionSuccess n now u).1).current_term = n.current_term := by
  unfold checkPromotionSuccess
  dsimp only
  split_ifs <;>
    simp [becomeLeaderFromPromotion_fst_current_term, stepDown_current_term]

theorem checkPromotionSuccess_fst_id (n : Node) (now u : ℚ) :
    ((checkPromotionSuccess n now u).1).id = n.id := by
  unfold checkPromotionSuccess
  dsimp only
  split_ifs <;> simp [becomeLeaderFromPromotion_fst_id, stepDown_id]

theorem instantPromotion_fst_id (n : Node) (now u1 u2 : ℚ) (connected : ℕ) :
    ((instantPromotion n now u1 u2 connected).1).id = n.id := by
  unfold instantPromotion
  dsimp only
  split_ifs <;> simp [sendAppendEntries_fst_id]

theorem instantPromotion_fst_current_term_ge (n : Node) (now u1 u2 : ℚ) (connected : ℕ) :
    n.current_term ≤ ((instantPromotion n now u1 u2 connected).1).current_term := by
  unfold instantPromotion
  dsimp only
  split_ifs
  · exact le_refl _
  · simp only [sendAppendEntries_fst_current_term]
    omega

theorem instantPromotion_votedInv (n : Node) (now u1 u2 : ℚ) (connected : ℕ)
    (hinv : VotedInv n) : VotedInv ((instantPromotion n now u1 u2 connected).1) := by
  unfold instantPromotion
  dsimp only
  split_ifs
  · exact hinv
  · intro _
    simp [sendAppendEntries_fst_voted_for, sendAppendEntries_fst_id]

/-- The instant-promotion step either keeps `voted_for` (connection gate)
or strictly raises the term. -/
theorem instantPromotion_voted_or (n : Node) (now u1 u2 : ℚ) (connected : ℕ) :
    ((instantPromotion n now u1 u2 connected).1).voted_for = n.voted_for ∨
    n.current_term < ((instantPromotion n now u1 u2 connected).1).current_term := by
  unfold instantPromotion
  dsimp only
  split_ifs
  · exact Or.inl rfl
  · right
    simp only [sendAppendEntries_fst_current_term]
    omega

theorem startElection_fst_id (n : Node) (now u1 u2 : ℚ) (connected : ℕ) :
    ((startElection n now u1 u2 connected).1).id = n.id := by
  unfold startElection
  dsimp only
  split_ifs <;> rfl

theorem startElection_fst_current_term_ge (n : Node) (now u1 u2 : ℚ) (connected : ℕ) :
    n.current_term ≤ ((startElection n now u1 u2 connected).1).current_term := by
  unfold startElection
  dsimp only
  split_ifs <;> dsimp only <;> omega

theorem startElection_votedInv (n : Node) (now u1 u2 : ℚ) (connected : ℕ)
    (hinv : VotedInv n) : VotedInv ((startElection n now u1 u2 connected).1) := by
  unfold startElection
  dsimp only
  split_ifs
  · exact hinv
  · exact hinv
  · exact hinv
  · intro _
    rfl

theorem startElection_voted_or (n : Node) (now u1 u2 : ℚ) (connected : ℕ) :
    ((startElection n now u1 u2 connected).1).voted_for = n.voted_for ∨
    n.current_term < ((startElection n now u1 u2 connected).1).current_term := by
  unfold startElection
  dsimp only
  split_ifs
  · exact Or.inl rfl
  · exact Or.inl rfl
  · exact Or.inl rfl
  · right
    dsimp only
    omega

theorem checkTimers_votedInv (n : Node) (now u1 u2 : ℚ) (connected : ℕ)
    (hinv : VotedInv n) : VotedInv ((checkTimers n now u1 u2 connected).1) := by
  unfold checkTimers
  dsimp only
  split_ifs <;>
    first
    | exact hinv
    | (intro h
       rw [stepDown_state] at h
       simp at h)
    | exact checkPromotionSuccess_votedInv _ _ _ hinv
    | (apply sendAppendEntries_votedInv
       first
       | exact hinv
       | exact checkPromotionSuccess_votedInv _ _ _ hinv)
    | exact instantPromotion_votedInv _ _ _ _ _ hinv
    | exact startElection_votedInv _ _ _ _ _ hinv

theorem checkTimers_fst_id (n : Node) (now u1 u2 : ℚ) (connected : ℕ) :
    ((checkTimers n now u1 u2 connected).1).id = n.id := by
  unfold checkTimers
  dsimp only
  split_ifs <;>
    simp [checkPromotionSuccess_fst_id, stepDown_id, sendAppendEntries_fst_id,
      instantPromotion_fst_id, startElection_fst_id]

set_option maxHeartbeats 1000000 in
theorem checkTimers_fst_current_term_ge (n : Node) (now u1 u2 : ℚ) (connected : ℕ) :
    n.current_term ≤ ((checkTimers n now u1 u2 connected).1).current_term := by
  unfold checkTimers
  dsimp only
  split_ifs <;>
    first
    | (simp only [stepDown_current_term, checkPromotionSuccess_fst_current_term,
        sendAppendEntries_fst_current_term]
       omega)
    | (refine le_trans (le_of_eq ?_) (instantPromotion_fst_current_term_ge _ _ _ _ _)
       rfl)
    | (refine le_trans (le_of_eq ?_) (startElection_fst_current_term_ge _ _ _ _ _)
       rfl)

/-- On a node that is neither Candidate nor Leader, a timer tick either
keeps `voted_for` or strictly raises the term (by starting an election or
an instant promotion). -/
theorem checkTimers_voted_or (n : Node) (now u1 u2 : ℚ) (connected : ℕ)
    (hs1 : n.state ≠ Role.candidate) (hs2 : n.state ≠ Role.leader) :
    ((checkTimers n now u1 u2 connected).1).voted_for = n.voted_for ∨
    n.current_term < ((checkTimers n now u1 u2 connected).1).current_term := by
  unfold checkTimers
  dsimp only
  rw [if_neg hs2, if_neg hs1]
  split_ifs <;>
    first
    | exact Or.inl rfl
    | exact instantPromotion_voted_or _ _ _ _ _
    | exact startElection_voted_or _ _ _ _ _

/-! ## Claim C1: step- and run-level facts -/

theorem submitCommand_fst_current_term (n : Node) (command : ℕ) :
    ((submitCommand n command).1).current_term = n.current_term := by
  unfold submitCommand; split_ifs <;> rfl

theorem submitCommand_fst_voted_for (n : Node) (command : ℕ) :
    ((submitCommand n command).1).voted_for = n.voted_for := by
  unfold submitCommand; split_ifs <;> rfl

theorem submitCommand_fst_id (n : Node) (command : ℕ) :
    ((submitCommand n command).1).id = n.id := by
  unfold submitCommand; split_ifs <;> rfl

theorem submitCommand_votedInv (n : Node) (command : ℕ) (hinv : VotedInv n) :
    VotedInv ((submitCommand n command).1) := by
  unfold submitCommand; split_ifs <;> exact hinv

theorem handleMessage_votedInv (n : Node) (now u1 u2 u3 : ℚ) (msg : Msg)
    (hinv : VotedInv n) : VotedInv ((handleMessage n now u1 u2 u3 msg).1) := by
  obtain ⟨sender, mterm, data⟩ := msg
  unfold handleMessage
  dsimp only
  have hinv0 : VotedInv (if mterm > n.current_term then
      stepDown { n with current_term := mterm } now u1 else n) := by
    split_ifs
    · intro h
      rw [stepDown_state] at h
      simp at h
    · exact hinv
  have hle : mterm ≤ (if mterm > n.current_term then
      stepDown { n with current_term := mterm } now u1 else n).current_term := by
    split_ifs with h
    · rw [stepDown_current_term]
    · omega
  set n0 := if mterm > n.current_term then
    stepDown { n with current_term := mterm } now u1 else n
  cases data with
  | ae p pt entries lc sl =>
    intro h
    rw [handleAppendEntries_fst_voted_for, handleAppendEntries_fst_id]
    rcases handleAppendEntries_fst_state n0 now u2 u3 sender mterm p pt entries lc sl
      with hs | hs
    · exact hinv0 (hs ▸ h)
    · rw [hs] at h
      rcases h with h | h <;> cases h
  | ack success mi =>
    intro h
    rw [handleAppendAck_fst_voted_for_of_le _ _ _ _ _ _ _ hle,
      handleAppendAck_fst_id]
    rcases handleAppendAck_fst_state_of_le n0 now u2 sender mterm success mi hle
      with hs | hs
    · exact hinv0 (hs ▸ h)
    · exact hinv0 (Or.inl hs.2)
  | rv lli llt =>
    intro h
    have hst := handleRequestVote_fst_state_of_le n0 now sender mterm lli llt hle
    rw [handleRequestVote_fst_id]
    have h0 : n0.voted_for = some n0.id := hinv0 (hst ▸ h)
    rcases handleRequestVote_fst_voted_for_of_le n0 now sender mterm lli llt hle
      with hv | ⟨hv, hg⟩
    · rw [hv]; exact h0
    · rw [hv]
      rcases hg with hg | hg
      · rw [h0] at hg; cases hg
      · rw [h0] at hg
        injection hg with hh
        rw [← hh]
  | vr granted =>
    intro h
    rw [handleVoteResponse_fst_voted_for_of_le _ _ _ _ _ _ hle,
      handleVoteResponse_fst_id]
    rcases handleVoteResponse_fst_state_of_le n0 now u2 sender mterm granted hle
      with hs | hs
    · exact hinv0 (hs ▸ h)
    · exact hinv0 (Or.inl hs.2)

theorem handleMessage_fst_id (n : Node) (now u1 u2 u3 : ℚ) (msg : Msg) :
    ((handleMessage n now u1 u2 u3 msg).1).id = n.id := by
  obtain ⟨sender, mterm, data⟩ := msg
  unfold handleMessage
  dsimp only
  have hid : (if mterm > n.current_term then
      stepDown { n with current_term := mterm } now u1 else n).id = n.id := by
    split_ifs <;> rfl
  cases data with
  | ae p pt entries lc sl => rw [handleAppendEntries_fst_id, hid]
  | ack success mi => rw [handleAppendAck_fst_id, hid]
  | rv lli llt => rw [handleRequestVote_fst_id, hid]
  | vr granted => rw [handleVoteResponse_fst_id, hid]

theorem handleMessage_fst_current_term_ge (n : Node) (now u1 u2 u3 : ℚ) (msg : Msg) :
    n.current_term ≤ ((handleMessage n now u1 u2 u3 msg).1).current_term := by
  obtain ⟨sender, mterm, data⟩ := msg
  unfold handleMessage
  dsimp only
  have hge : n.current_term ≤ (if mterm > n.current_term then
      stepDown { n with current_term := mterm } now u1 else n).current_term := by
    split_ifs with h
    · rw [stepDown_current_term]
      dsimp only
      omega
    · exact le_refl _
  set n0 := if mterm > n.current_term then
    stepDown { n with current_term := mterm } now u1 else n
  cases data with
  | ae p pt entries lc sl =>
    exact le_trans hge (handleAppendEntries_fst_current_term_ge _ _ _ _ _ _ _ _ _ _ _)
  | ack success mi =>
    rw [handleAppendAck_fst_current_term]
    exact hge
  | rv lli llt =>
    exact le_trans hge (handleRequestVote_fst_current_term_ge _ _ _ _ _ _)
  | vr granted =>
    rw [handleVoteResponse_fst_current_term]
    exact hge

/-- If processing a message leaves the term unchanged, an existing vote
for `a` survives — the only way the vote changes is a re-grant to `a`
itself (same-term duplicate) or a strictly higher term. -/
theorem handleMessage_voted_stable (n : Node) (now u1 u2 u3 : ℚ) (msg : Msg) (a : ℕ)
    (hv : n.voted_for = some a)
    (hterm : ((handleMessage n now u1 u2 u3 msg).1).current_term = n.current_term) :
    ((handleMessage n now u1 u2 u3 msg).1).voted_for = some a := by
  obtain ⟨sender, mterm, data⟩ := msg
  unfold handleMessage at hterm ⊢
  dsimp only at hterm ⊢
  by_cases hw : mterm > n.current_term
  · exfalso
    rw [if_pos hw] at hterm
    have hct : (stepDown { n with current_term := mterm } now u1).current_term
        = mterm := by rw [stepDown_current_term]
    cases data with
    | ae p pt entries lc sl =>
      dsimp only at hterm
      have := handleAppendEntries_fst_current_term_ge
        (stepDown { n with current_term := mterm } now u1) now u2 u3
        sender mterm p pt entries lc sl
      omega
    | ack success mi =>
      dsimp only at hterm
      rw [handleAppendAck_fst_current_term, hct] at hterm
      omega
    | rv lli llt =>
      dsimp only at hterm
      have := handleRequestVote_fst_current_term_ge
        (stepDown { n with current_term := mterm } now u1) now sender mterm lli llt
      omega
    | vr granted =>
      dsimp only at hterm
      rw [handleVoteResponse_fst_current_term, hct] at hterm
      omega
  · rw [if_neg hw] at hterm ⊢
    have hle : mterm ≤ n.current_term := by omega
    cases data with
    | ae p pt entries lc sl =>
      dsimp only
      rw [handleAppendEntries_fst_voted_for]
      exact hv
    | ack success mi =>
      dsimp only
      rw [handleAppendAck_fst_voted_for_of_le _ _ _ _ _ _ _ hle]
      exact hv
    | rv lli llt =>
      dsimp only
      rcases handleRequestVote_fst_voted_for_of_le n now sender mterm lli llt hle
        with hv' | ⟨hv', hg⟩
      · rw [hv']; exact hv
      · rcases hg with hg | hg
        · rw [hv] at hg; cases hg
        · rw [hv] at hg
          injection hg with hh
          rw [hv', hh]
    | vr granted =>
      dsimp only
      rw [handleVoteResponse_fst_voted_for_of_le _ _ _ _ _ _ hle]
      exact hv

theorem stepEv_votedInv (n : Node) (e : Event) (hinv : VotedInv n) :
    VotedInv ((stepEv n e).1) := by
  cases e with
  | deliver now u1 u2 u3 msg => exact handleMessage_votedInv n now u1 u2 u3 msg hinv
  | tick now u1 u2 connected => exact checkTimers_votedInv n now u1 u2 connected hinv
  | submit command => exact submitCommand_votedInv n command hinv

theorem stepEv_fst_id (n : Node) (e : Event) : ((stepEv n e).1).id = n.id := by
  cases e with
  | deliver now u1 u2 u3 msg => exact handleMessage_fst_id n now u1 u2 u3 msg
  | tick now u1 u2 connected => exact checkTimers_fst_id n now u1 u2 connected
  | submit command => exact submitCommand_fst_id n command

theorem stepEv_fst_current_term_ge (n : Node) (e : Event) :
    n.current_term ≤ ((stepEv n e).1).current_term := by
  cases e with
  | deliver now u1 u2 u3 msg => exact handleMessage_fst_current_term_ge n now u1 u2 u3 msg
  | tick now u1 u2 connected => exact checkTimers_fst_current_term_ge n now u1 u2 connected
  | submit command => exact le_of_eq (submitCommand_fst_current_term n command).symm

theorem stepEv_voted_stable (n : Node) (e : Event) (a : ℕ)
    (hinv : VotedInv n) (hv : n.voted_for = some a) (ha : a ≠ n.id)
    (hterm : ((stepEv n e).1).current_term = n.current_term) :
    ((stepEv n e).1).voted_for = some a := by
  cases e with
  | deliver now u1 u2 u3 msg => exact handleMessage_voted_stable n now u1 u2 u3 msg a hv hterm
  | tick now u1 u2 connected =>
    have hs1 : n.state ≠ Role.candidate := by
      intro h
      have := hinv (Or.inl h)
      rw [hv] at this
      exact ha (Option.some_injective _ this)
    have hs2 : n.state ≠ Role.leader := by
      intro h
      have := hinv (Or.inr h)
      rw [hv] at this
      exact ha (Option.some_injective _ this)
    rcases checkTimers_voted_or n now u1 u2 connected hs1 hs2 with h | h
    · rw [stepEv] at hterm ⊢
      rw [h, hv]
    · rw [stepEv] at hterm
      omega
  | submit command =>
    rw [stepEv, submitCommand_fst_voted_for]
    exact hv

theorem runEv_current_term_ge (n : Node) (evs : List Event) :
    n.current_term ≤ (runEv n evs).current_term := by
  induction evs generalizing n with
  | nil => exact le_refl _
  | cons e es ih =>
    rw [runEv]
    exact le_trans (stepEv_fst_current_term_ge n e) (ih _)

/-- Along any event sequence that leaves the term unchanged, a vote for a
foreign candidate `a` survives, together with the voted-for discipline
and the node id. -/
theorem runEv_voted_stable (evs : List Event) (n : Node) (a : ℕ)
    (hinv : VotedInv n) (hv : n.voted_for = some a) (ha : a ≠ n.id)
    (hterm : (runEv n evs).current_term = n.current_term) :
    (runEv n evs).voted_for = some a ∧ VotedInv (runEv n evs) ∧
      (runEv n evs).id = n.id := by
  induction evs generalizing n with
  | nil => exact ⟨hv, hinv, rfl⟩
  | cons e es ih =>
    rw [runEv] at hterm ⊢
    have hmid : ((stepEv n e).1).current_term = n.current_term := by
      have h1 := stepEv_fst_current_term_ge n e
      have h2 := runEv_current_term_ge (stepEv n e).1 es
      omega
    have hv' := stepEv_voted_stable n e a hinv hv ha hmid
    have hinv' := stepEv_votedInv n e hinv
    have hid' := stepEv_fst_id n e
    have ha' : a ≠ ((stepEv n e).1).id := by rw [hid']; exact ha
    have hterm' : (runEv (stepEv n e).1 es).current_term
        = ((stepEv n e).1).current_term := by omega
    obtain ⟨hr1, hr2, hr3⟩ := ih _ hinv' hv' ha' hterm'
    exact ⟨hr1, hr2, by rw [hr3, hid']⟩

/-- C1: once a node has granted its vote to candidate `a` in term `T`
(via `_handle_request_vote`, recording `voted_for`), then across any
sequence of message receptions, timer ticks and client submissions that
leaves `current_term` at `T`, a later RequestVote in the same term `T`
from any different candidate `b ≠ a` is refused.  The hypothesis
`VotedInv` (a Candidate/Leader has voted for itself) holds initially and
is preserved by every operation (`stepEv_votedInv`), so it covers every
reachable state. -/
theorem vote_granted_at_most_once_per_term
    (n : Node) (hinv : VotedInv n)
    (now0 u01 u02 u03 : ℚ) (a t1 lli llt : ℕ) (ha : a ≠ n.id)
    (hgrant : MData.vr true ∈
      ((handleMessage n now0 u01 u02 u03 ⟨a, t1, MData.rv lli llt⟩).2.map
        (fun q => q.2.data)))
    (evs : List Event) (T : ℕ)
    (hT1 : ((handleMessage n now0 u01 u02 u03 ⟨a, t1, MData.rv lli llt⟩).1).current_term
      = T)
    (hT2 : (runEv (handleMessage n now0 u01 u02 u03 ⟨a, t1, MData.rv lli llt⟩).1
        evs).current_term = T)
    (b lli2 llt2 : ℕ) (now1 u11 u12 u13 : ℚ) (hb : b ≠ a) :
    (handleMessage
        (runEv (handleMessage n now0 u01 u02 u03 ⟨a, t1, MData.rv lli llt⟩).1 evs)
        now1 u11 u12 u13 ⟨b, T, MData.rv lli2 llt2⟩).2
      = [(b, ⟨n.id, T, MData.vr false⟩)] := by
  have hgrant' : MData.vr true ∈
      ((handleRequestVote (if t1 > n.current_term then
          stepDown { n with current_term := t1 } now0 u01 else n)
        now0 a t1 lli llt).2.map (fun q => q.2.data)) := hgrant
  have hs1v : ((handleMessage n now0 u01 u02 u03 ⟨a, t1, MData.rv lli llt⟩).1).voted_for
      = some a := handleRequestVote_granted_voted _ _ _ _ _ _ hgrant'
  have hinv1 := handleMessage_votedInv n now0 u01 u02 u03 ⟨a, t1, MData.rv lli llt⟩ hinv
  have hid1 := handleMessage_fst_id n now0 u01 u02 u03 ⟨a, t1, MData.rv lli llt⟩
  have ha1 : a ≠ ((handleMessage n now0 u01 u02 u03 ⟨a, t1, MData.rv lli llt⟩).1).id := by
    rw [hid1]; exact ha
  obtain ⟨hrv, hrinv, hrid⟩ := runEv_voted_stable evs
    (handleMessage n now0 u01 u02 u03 ⟨a, t1, MData.rv lli llt⟩).1 a hinv1 hs1v ha1
    (by rw [hT2, hT1])
  generalize hS : runEv (handleMessage n now0 u01 u02 u03
    ⟨a, t1, MData.rv lli llt⟩).1 evs = S at hT2 hrv hrid ⊢
  unfold handleMessage
  dsimp only
  split_ifs with h
  · omega
  · rw [handleRequestVote_refuse S now1 b T lli2 llt2 a (by omega) hrv hb,
      hrid, hid1, hT2]

/-- Closed instantiation of `vote_granted_at_most_once_per_term`: a
concrete Follower in term 3 grants node 1's RequestVote, and then refuses
node 2's RequestVote for the same term. -/
theorem vote_granted_at_most_once_per_term_witness :
    (handleMessage
        (runEv (handleMessage { node0 with current_term := 3 } 0 0 0 0
          ⟨1, 3, MData.rv 0 0⟩).1 [])
        0 0 0 0 ⟨2, 3, MData.rv 0 0⟩).2
      = [(2, ⟨0, 3, MData.vr false⟩)] :=
  vote_granted_at_most_once_per_term { node0 with current_term := 3 }
    (fun h => by rcases h with h | h <;> exact absurd h (by decide))
    0 0 0 0 1 3 0 0 (by decide) (by decide) [] 3 (by decide) (by decide)
    2 0 0 0 0 0 0 (by decide)

/-! ## Claim C8 -/

theorem qToNat_natCast (nk : ℕ) : qToNat (nk : ℚ) = some nk := by
  simp [qToNat, Rat.den_natCast, Rat.num_natCast]

theorem digitChar_roundtrip (d : ℕ) (hd : d < 10) :
    (Char.ofNat (48 + d)).toNat - 48 = d := by
  interval_cases d <;> decide

theorem keyToNat_natKey (nk : ℕ) : keyToNat (natKey nk) = nk := by
  by_cases h : nk = 0
  · subst h; decide
  · unfold natKey keyToNat
    rw [if_neg h]
    show Nat.ofDigits 10
      (((((Nat.digits 10 nk).map (fun d => Char.ofNat (48 + d))).reverse).map
        (fun c => c.toNat - 48)).reverse) = nk
    rw [List.map_reverse, List.reverse_reverse, List.map_map]
    have hmap : ((Nat.digits 10 nk).map
        ((fun c => Char.toNat c - 48) ∘ fun d => Char.ofNat (48 + d)))
        = Nat.digits 10 nk := by
      have hc : ∀ d ∈ Nat.digits 10 nk,
          ((fun c => Char.toNat c - 48) ∘ fun d => Char.ofNat (48 + d)) d = id d :=
        fun d hd => digitChar_roundtrip d (Nat.digits_lt_base (by norm_num) hd)
      exact (List.map_congr_left hc).trans (List.map_id _)
    rw [hmap, Nat.ofDigits_digits]

theorem entryFromJ_entryToJ (e : LogEntry) : entryFromJ (entryToJ e) = some e := by
  simp [entryToJ, entryFromJ, List.lookup, jToNat, qToNat_natCast]

theorem optMapList_entries (l : List LogEntry) :
    optMapList entryFromJ (l.map entryToJ) = some l := by
  induction l with
  | nil => rfl
  | cons e t ih => simp [optMapList, entryFromJ_entryToJ, ih]

theorem optMapList_subs (m : List (ℕ × ℕ)) :
    optMapList (fun q => (jToNat q.2).map (fun r => (keyToNat q.1, r)))
      (m.map (fun p => (natKey p.1, J.jnum (p.2 : ℚ)))) = some m := by
  induction m with
  | nil => rfl
  | cons p t ih =>
    have hhead : (fun q => (jToNat q.2).map (fun r => (keyToNat q.1, r)))
        ((natKey p.1, J.jnum (p.2 : ℚ))) = some p := by
      simp [jToNat, qToNat_natCast, keyToNat_natKey]
    simp only [List.map_cons, optMapList, hhead, ih]

theorem desPair_serPair (p : String × PVal) (h : WFPair p = true) :
    desPair (serPair p) = some p := by
  obtain ⟨k, v⟩ := p
  cases v with
  | num q =>
    simp [WFPair] at h
    simp [serPair, desPair, h.1, h.2]
  | flag b =>
    simp [WFPair] at h
    simp [serPair, desPair, h.1, h.2]
  | str s =>
    simp [WFPair] at h
    simp [serPair, desPair, h.1, h.2]
  | entries l =>
    simp [WFPair] at h
    subst h
    simp [serPair, desPair, optMapList_entries]
  | subs m =>
    simp [WFPair] at h
    subst h
    simp [serPair, desPair, optMapList_subs]

theorem optMapList_data (d : List (String × PVal))
    (h : ∀ p ∈ d, WFPair p = true) :
    optMapList desPair (d.map serPair) = some d := by
  induction d with
  | nil => rfl
  | cons p t ih =>
    simp only [List.map_cons, optMapList,
      desPair_serPair p (h p (List.mem_cons_self p t)),
      ih (fun q hq => h q (List.mem_cons_of_mem p hq))]

/-- C8: `Message.decode(m.encode())` reconstructs the message field by
field (`type`, `sender_id`, `term`, `timestamp`, `message_id`, `data`):
`data.entries` comes back as typed `LogEntry` values equal to the
originals and `data.sub_leaders` comes back with its integer keys
restored, even though JSON carries them as decimal strings
(`keyToNat_natKey`).  Well-formedness asks only that the `entries` /
`sub_leaders` keys carry their respective payload kinds, as every
`create_*` helper ensures. -/
theorem message_encode_decode_roundtrip (m : WireMessage)
    (h : ∀ p ∈ m.data, WFPair p = true) :
    decodeW (encodeW m) = some m := by
  unfold encodeW decodeW
  dsimp only
  have h1 : List.lookup "type"
      [("type", J.jstr m.type), ("sender_id", J.jnum m.sender_id),
       ("term", J.jnum m.term), ("data", J.jobj (m.data.map serPair)),
       ("timestamp", J.jnum m.timestamp), ("message_id", J.jstr m.message_id)]
      = some (J.jstr m.type) := rfl
  have h2 : List.lookup "sender_id"
      [("type", J.jstr m.type), ("sender_id", J.jnum m.sender_id),
       ("term", J.jnum m.term), ("data", J.jobj (m.data.map serPair)),
       ("timestamp", J.jnum m.timestamp), ("message_id", J.jstr m.message_id)]
      = some (J.jnum m.sender_id) := rfl
  have h3 : List.lookup "term"
      [("type", J.jstr m.type), ("sender_id", J.jnum m.sender_id),
       ("term", J.jnum m.term), ("data", J.jobj (m.data.map serPair)),
       ("timestamp", J.jnum m.timestamp), ("message_id", J.jstr m.message_id)]
      = some (J.jnum m.term) := rfl
  have h4 : List.lookup "data"
      [("type", J.jstr m.type), ("sender_id", J.jnum m.sender_id),
       ("term", J.jnum m.term), ("data", J.jobj (m.data.map serPair)),
       ("timestamp", J.jnum m.timestamp), ("message_id", J.jstr m.message_id)]
      = some (J.jobj (m.data.map serPair)) := rfl
  have h5 : List.lookup "timestamp"
      [("type", J.jstr m.type), ("sender_id", J.jnum m.sender_id),
       ("term", J.jnum m.term), ("data", J.jobj (m.data.map serPair)),
       ("timestamp", J.jnum m.timestamp), ("message_id", J.jstr m.message_id)]
      = some (J.jnum m.timestamp) := rfl
  have h6 : List.lookup "message_id"
      [("type", J.jstr m.type), ("sender_id", J.jnum m.sender_id),
       ("term", J.jnum m.term), ("data", J.jobj (m.data.map serPair)),
       ("timestamp", J.jnum m.timestamp), ("message_id", J.jstr m.message_id)]
      = some (J.jstr m.message_id) := rfl
  rw [h1, h2, h3, h4, h5, h6]
  simp [jToStr, jToNat, jToQ, qToNat_natCast, optMapList_data m.data h]

/-- Closed instantiation of `message_encode_decode_roundtrip` at a
concrete AppendEntries message with one log entry and two sub-leaders. -/
theorem message_encode_decode_roundtrip_witness :
    decodeW (encodeW
      { type := "AppendEntries", sender_id := 0, term := 6,
        data := [("prev_log_index", PVal.num 0), ("prev_log_term", PVal.num 0),
          ("entries", PVal.entries [⟨1, 5, 1⟩]), ("leader_commit", PVal.num 1),
          ("sub_leaders", PVal.subs [(1, 0), (2, 1)])],
        timestamp := 5/4, message_id := "0_1234" })
      = some
      { type := "AppendEntries", sender_id := 0, term := 6,
        data := [("prev_log_index", PVal.num 0), ("prev_log_term", PVal.num 0),
          ("entries", PVal.entries [⟨1, 5, 1⟩]), ("leader_commit", PVal.num 1),
          ("sub_leaders", PVal.subs [(1, 0), (2, 1)])],
        timestamp := 5/4, message_id := "0_1234" } :=
  message_encode_decode_roundtrip _ (by decide)

end SRaft
